import Mathlib

/-!
# go-dhcpd: a minimal DHCPv4 responder

Shallow embedding of `dhcpd/dhcpd.go`.  Bytes are natural numbers (a Go
`byte(e)` conversion is written `e % 256`), byte slices are `List Nat`, and
the mutable receiver `*dhcpd` is passed in and returned explicitly.  A Go
run-time panic (an index out of range) is an explicit result.
-/

namespace Dhcpd

/-! ## The registry (`sync.SyncList`) -/

/-- Modelled from the spec: the generic list `sync.SyncList` lives in the
external package `go-sync` and is absent from the sources.  The spec describes
the registry as an insertion-ordered sequence of hardware addresses whose
0-based position is the registry index, from which nothing is ever removed. -/
structure SyncList (α : Type) where
  items : List α
deriving DecidableEq, Repr

/-- Modelled from the spec: position of the first entry equal to `v` in an
insertion-ordered sequence (helper of `SyncList.Find`). -/
def findIndex {α : Type} [DecidableEq α] : List α → α → Option Nat
  | [], _ => none
  | x :: xs, v => if x = v then some 0 else (findIndex xs v).map (· + 1)

/-- Modelled from the spec: the empty registry, the zero value
`sync.SyncList[[6]byte]{}` that `CreateServer` starts from. -/
def SyncList.empty {α : Type} : SyncList α := ⟨[]⟩

/-- Modelled from the spec: `Find(v)` of the absent `sync.SyncList` returns the
registry index of `v` (`some i` stands for `(i, true)`, `none` for
`(_, false)`). -/
def SyncList.Find {α : Type} [DecidableEq α] (l : SyncList α) (v : α) : Option Nat :=
  findIndex l.items v

/-- Modelled from the spec: `Size()` of the absent `sync.SyncList`, the number
of registry entries. -/
def SyncList.Size {α : Type} (l : SyncList α) : Nat := l.items.length

/-- Modelled from the spec: `Add(v)` of the absent `sync.SyncList` appends `v`
at the next free index. -/
def SyncList.Add {α : Type} (l : SyncList α) (v : α) : SyncList α := ⟨l.items ++ [v]⟩

/-! ## Server state -/

/-- The `dhcpd` struct: the registry and the read-only configuration. -/
structure dhcpd where
  macs : SyncList (List Nat)
  ifname : String
  localMask : List Nat
  localIp : List Nat
  localMac : List Nat
  serverPort : Nat
deriving DecidableEq, Repr

/-- Go's built-in `copy(dst[:], src)` into a zeroed array of `n` bytes: the
first `n` bytes of `src`, padded with zeros when `src` is shorter. -/
def copyInto (n : Nat) (src : List Nat) : List Nat :=
  src.take n ++ List.replicate (n - src.length) 0

/-- The function `ipToComparator`: a slice turned into a comparable `[4]byte`. -/
def ipToComparator (input : List Nat) : List Nat := copyInto 4 input

/-- The composite literal `net.IP{s.localIp[0], s.localIp[1], s.localIp[2], ip3}`
at the end of `genIP`; `none` is the index-out-of-range panic of a `localIp`
shorter than three bytes. -/
def mkIP (localIp : List Nat) (ip3 : Nat) : Option (List Nat) :=
  match localIp[0]?, localIp[1]?, localIp[2]? with
  | some a, some b, some c => some [a, b, c, ip3]
  | _, _, _ => none

/-- The method `genIP`.  The result is the returned IP (`none` when building
the literal panics) and the state left behind; the registry is updated before
the literal is evaluated, as in the source. -/
def genIP (s : dhcpd) (hardwareAddr : List Nat) : Option (List Nat) × dhcpd :=
  let mac := copyInto 6 hardwareAddr
  match s.macs.Find mac with
  | some i => (mkIP s.localIp ((i + 2) % 256), s)
  | none =>
    let ip3 := (s.macs.Size + 2) % 256
    (mkIP s.localIp ip3, { s with macs := s.macs.Add mac })

/-- Sequential `genIP` calls, one after another: the IPs returned, in call
order, and the final state. -/
def genIPs (s : dhcpd) : List (List Nat) → List (Option (List Nat)) × dhcpd
  | [] => ([], s)
  | hw :: rest =>
    let r := genIP s hw
    let rs := genIPs r.2 rest
    (r.1 :: rs.1, rs.2)

/-! ## DHCP messages (external package `dhcpv4`) -/

/-- Modelled from the spec: the structured DHCP message comes from the external
DHCP-message package, absent from the sources.  It carries the opcode, the
client hardware address, the fields a reply echoes (transaction id, flags,
relay address, client address fields) and the options, each option a code
with its value bytes. -/
structure DHCPv4 where
  OpCode : Nat
  HWType : Nat
  ClientHWAddr : List Nat
  HopCount : Nat
  TransactionID : List Nat
  NumSeconds : Nat
  Flags : Nat
  ClientIPAddr : List Nat
  YourIPAddr : List Nat
  ServerIPAddr : List Nat
  GatewayIPAddr : List Nat
  ServerHostName : String
  BootFileName : String
  Options : List (Nat × List Nat)
deriving DecidableEq, Repr

/-- Opcode of a client request (`dhcpv4.OpcodeBootRequest`). -/
def OpcodeBootRequest : Nat := 1
/-- Opcode of a server reply (`dhcpv4.OpcodeBootReply`). -/
def OpcodeBootReply : Nat := 2
/-- Hardware type Ethernet (`iana.HWTypeEthernet`). -/
def HWTypeEthernet : Nat := 1

/-- Message type of a message without a readable type option. -/
def MessageTypeNone : Nat := 0
/-- Message type DISCOVER. -/
def MessageTypeDiscover : Nat := 1
/-- Message type OFFER. -/
def MessageTypeOffer : Nat := 2
/-- Message type REQUEST. -/
def MessageTypeRequest : Nat := 3
/-- Message type ACK. -/
def MessageTypeAck : Nat := 5
/-- Message type NAK. -/
def MessageTypeNak : Nat := 6

/-- Option code of the subnet mask. -/
def OptionSubnetMask : Nat := 1
/-- Option code of the router list. -/
def OptionRouter : Nat := 3
/-- Option code of the requested IP address. -/
def OptionRequestedIPAddress : Nat := 50
/-- Option code of the lease time. -/
def OptionIPAddressLeaseTime : Nat := 51
/-- Option code of the DHCP message type. -/
def OptionDHCPMessageType : Nat := 53
/-- Option code of the server identifier. -/
def OptionServerIdentifier : Nat := 54
/-- Option code of the human-readable message. -/
def OptionMessage : Nat := 56
/-- Option code of the client identifier. -/
def OptionClientIdentifier : Nat := 61
/-- Option code of the relay agent information. -/
def OptionRelayAgentInformation : Nat := 82

/-- The zero address `net.IPv4zero`, which Go holds in its 16-byte form. -/
def IPv4zero : List Nat := [0, 0, 0, 0, 0, 0, 0, 0, 0, 0, 255, 255, 0, 0, 0, 0]

/-- Go's `net.IP.To4`: the 4-byte form of an IPv4 address, `none` for `nil`. -/
def To4 (ip : List Nat) : Option (List Nat) :=
  if ip.length = 4 then some ip
  else if ip.length = 16 ∧ ip.take 12 = [0, 0, 0, 0, 0, 0, 0, 0, 0, 0, 255, 255] then
    some (ip.drop 12)
  else none

/-- Value bytes of an IP-valued option: the address in 4-byte form (nothing for
an address that has none). -/
def ipBytes (ip : List Nat) : List Nat := (To4 ip).getD []

/-- Value bytes of a mask option (`dhcpv4.OptSubnetMask`): the mask, cut to its
first four bytes when it is longer. -/
def maskBytes (mask : List Nat) : List Nat :=
  if mask.length > 4 then mask.take 4 else mask

/-- Value bytes of a duration option: the seconds as a big-endian `uint32`. -/
def durationBytes (seconds : Nat) : List Nat :=
  let v := seconds % 4294967296
  [v / 16777216 % 256, v / 65536 % 256, v / 256 % 256, v % 256]

/-- Value bytes of a text option: the UTF-8 bytes of the text. -/
def stringBytes (text : String) : List Nat :=
  text.toList.flatMap (fun c => (String.utf8EncodeChar c).map (·.toNat))

/-- Modelled from the spec: `Options.Get`, the value stored under a code. -/
def optGet (o : List (Nat × List Nat)) (code : Nat) : Option (List Nat) :=
  (o.find? (fun e => e.1 = code)).map (·.2)

/-- Modelled from the spec: `Options.Del`, the options without a code. -/
def optDel (o : List (Nat × List Nat)) (code : Nat) : List (Nat × List Nat) :=
  o.filter (fun e => e.1 ≠ code)

/-- Modelled from the spec: `Options.Update`, which stores a value under a
code, overriding any value already there. -/
def optUpdate (o : List (Nat × List Nat)) (code : Nat) (value : List Nat) :
    List (Nat × List Nat) :=
  (code, value) :: optDel o code

/-- Modelled from the spec: `DHCPv4.UpdateOption`. -/
def DHCPv4.UpdateOption (d : DHCPv4) (code : Nat) (value : List Nat) : DHCPv4 :=
  { d with Options := optUpdate d.Options code value }

/-- Modelled from the spec: `DHCPv4.MessageType`, the one-byte value of the
message-type option, `MessageTypeNone` when absent or malformed. -/
def DHCPv4.MessageType (d : DHCPv4) : Nat :=
  match optGet d.Options OptionDHCPMessageType with
  | some [t] => t
  | _ => MessageTypeNone

/-- Modelled from the spec: `DHCPv4.RequestedIPAddress`, the 4-byte value of the
requested-IP option, `none` (Go `nil`) when absent or not four bytes long. -/
def DHCPv4.RequestedIPAddress (d : DHCPv4) : Option (List Nat) :=
  match optGet d.Options OptionRequestedIPAddress with
  | some v => if v.length = 4 then some v else none
  | none => none

/-- Modelled from the spec: `DHCPv4.SetBroadcast`, which sets the broadcast bit
of the flags. -/
def DHCPv4.SetBroadcast (d : DHCPv4) : DHCPv4 := { d with Flags := d.Flags ||| 32768 }

/-- Modelled from the spec: `DHCPv4.SetUnicast`, which clears the broadcast bit
of the 16-bit flags. -/
def DHCPv4.SetUnicast (d : DHCPv4) : DHCPv4 := { d with Flags := d.Flags &&& 32767 }

/-- Modelled from the spec: `DHCPv4.IsBroadcast`, whether the broadcast bit of
the flags is set. -/
def DHCPv4.IsBroadcast (d : DHCPv4) : Bool := d.Flags &&& 32768 == 32768

/-- Modelled from the spec: the "build reply skeleton from request" step
`dhcpv4.NewReplyFromRequest` of the absent DHCP package.  It fails when no
transaction id can be generated (`xid = none`); otherwise it starts from a
message with zero addresses and no options, and copies from the request the
transaction-identifying fields (hardware type and address, transaction id,
flags, relay address) and the relay-agent and client-identifier options. -/
def NewReplyFromRequest (xid : Option (List Nat)) (request : DHCPv4) : Except String DHCPv4 :=
  match xid with
  | none => .error "cannot generate a transaction id"
  | some _ =>
    let copied (o : List (Nat × List Nat)) (code : Nat) : List (Nat × List Nat) :=
      match optGet request.Options code with
      | some v => optUpdate o code v
      | none => o
    .ok
      { OpCode := if request.OpCode = OpcodeBootRequest then OpcodeBootReply else OpcodeBootRequest
        HWType := request.HWType
        ClientHWAddr := request.ClientHWAddr
        HopCount := 0
        TransactionID := request.TransactionID
        NumSeconds := 0
        Flags := request.Flags
        ClientIPAddr := IPv4zero
        YourIPAddr := IPv4zero
        ServerIPAddr := IPv4zero
        GatewayIPAddr := request.GatewayIPAddr
        ServerHostName := ""
        BootFileName := ""
        Options := copied (copied [] OptionRelayAgentInformation) OptionClientIdentifier }

/-! ## Frames -/

/-- The fields `createUnicastLayer` sets of `layers.Ethernet`. -/
structure Ethernet where
  SrcMAC : List Nat
  DstMAC : List Nat
  EthernetType : Nat
deriving DecidableEq, Repr

/-- The fields `createUnicastLayer` sets of `layers.IPv4`. -/
structure IPv4 where
  SrcIP : List Nat
  DstIP : List Nat
  Protocol : Nat
  Flags : Nat
  Version : Nat
  TTL : Nat
deriving DecidableEq, Repr

/-- The fields `createUnicastLayer` sets of `layers.UDP`. -/
structure UDP where
  SrcPort : Nat
  DstPort : Nat
deriving DecidableEq, Repr

/-- EtherType of IPv4 (`layers.EthernetTypeIPv4`). -/
def EthernetTypeIPv4 : Nat := 2048
/-- IP protocol number of UDP (`layers.IPProtocolUDP`). -/
def IPProtocolUDP : Nat := 17
/-- The don't-fragment flag (`layers.IPv4DontFragment`). -/
def IPv4DontFragment : Nat := 2

/-- The method `createUnicastLayer`; `layers.UDPPort` is a `uint16`.  The
checksum link from the UDP layer to the IPv4 layer only matters to the
serialiser and is left out. -/
def createUnicastLayer (s : dhcpd) (dstIP dstMAC : List Nat) (dstPort : Nat) :
    Ethernet × IPv4 × UDP :=
  let eth : Ethernet :=
    { SrcMAC := s.localMac, DstMAC := dstMAC, EthernetType := EthernetTypeIPv4 }
  let ipv4 : IPv4 :=
    { SrcIP := s.localIp, DstIP := dstIP, Protocol := IPProtocolUDP,
      Flags := IPv4DontFragment, Version := 4, TTL := 128 }
  let udp : UDP := { SrcPort := s.serverPort % 65536, DstPort := dstPort }
  (eth, ipv4, udp)

/-- The source address of an inbound packet, a `*net.UDPAddr` (the listener
hands no other kind of address to the handler). -/
structure UDPAddr where
  IP : List Nat
  Port : Nat
deriving DecidableEq, Repr

/-- What a handler call writes: a complete hand-built frame written to the raw
link-layer handle of an interface (`frame`), a payload written through the
listener's socket to an address (`socket`, `conn.WriteTo`), or, when
serialising the layers stopped with an error, the incomplete bytes written to
the raw handle all the same: the payload under the IPv4 and UDP headers only
(`withoutEthernet`) or under the UDP header only (`withoutNetwork`). -/
inductive Sent where
  | frame (ifname : String) (eth : Ethernet) (ipv4 : IPv4) (udp : UDP) (payload : DHCPv4)
  | socket (peer : UDPAddr) (payload : DHCPv4)
  | withoutEthernet (ifname : String) (ipv4 : IPv4) (udp : UDP) (payload : DHCPv4)
  | withoutNetwork (ifname : String) (udp : UDP) (payload : DHCPv4)
deriving DecidableEq, Repr

/-- Modelled from the spec: the external packet-building package
(`gopacket.SerializeLayers` with its layers) is absent from the sources.  The
layers are serialised from the payload outwards and the first error stops the
work, leaving in the buffer what was serialised so far.  The UDP layer needs,
for its checksum, the 4-byte forms of both IP addresses and fails without
them, its own header already in place; the IPv4 layer writes the addresses in
4-byte form; the Ethernet layer refuses a hardware address that is not six
bytes long.  The result is what `sendUnicast`, which ignores the error, then
writes to the handle of the interface. -/
def SerializeLayers (ifname : String) (eth : Ethernet) (ipv4 : IPv4) (udp : UDP)
    (payload : DHCPv4) : Sent :=
  match To4 ipv4.SrcIP, To4 ipv4.DstIP with
  | some src, some dst =>
    if eth.DstMAC.length = 6 ∧ eth.SrcMAC.length = 6 then
      .frame ifname eth { ipv4 with SrcIP := src, DstIP := dst } udp payload
    else
      .withoutEthernet ifname { ipv4 with SrcIP := src, DstIP := dst } udp payload
  | _, _ => .withoutNetwork ifname udp payload

/-- Result of a method that may return a value, return a Go error, or panic. -/
inductive Res (α : Type) where
  | ok (a : α)
  | err (msg : String)
  | panic
deriving DecidableEq, Repr

/-- The method `createUnicastPayload`; six hours are 21600 seconds. -/
def createUnicastPayload (s : dhcpd) (xid : Option (List Nat)) (m : DHCPv4)
    (messageType : Nat) : Res DHCPv4 × dhcpd :=
  match NewReplyFromRequest xid m with
  | .error e => (.err e, s)
  | .ok reply =>
    let reply := reply.UpdateOption OptionDHCPMessageType [messageType]
    let reply := reply.UpdateOption OptionServerIdentifier (ipBytes s.localIp)
    let reply := reply.UpdateOption OptionIPAddressLeaseTime (durationBytes (6 * 3600))
    let reply := reply.UpdateOption OptionSubnetMask (maskBytes s.localMask)
    let reply := reply.UpdateOption OptionRouter (ipBytes s.localIp)
    let reply := reply.SetUnicast
    let reply := { reply with Options := optDel reply.Options OptionClientIdentifier }
    match genIP s m.ClientHWAddr with
    | (none, s1) => (.panic, s1)
    | (some ip, s1) => (.ok { reply with YourIPAddr := ip, ServerIPAddr := s.localIp }, s1)

/-- The method `createBroadcastPayload`. -/
def createBroadcastPayload (s : dhcpd) (xid : Option (List Nat)) (m : DHCPv4)
    (messageType : Nat) : Except String DHCPv4 :=
  match NewReplyFromRequest xid m with
  | .error e => .error e
  | .ok reply =>
    let reply := reply.UpdateOption OptionDHCPMessageType [messageType]
    let reply := reply.UpdateOption OptionServerIdentifier (ipBytes s.localIp)
    let reply := reply.UpdateOption OptionMessage (stringBytes "requested address not available")
    let reply := reply.SetBroadcast
    .ok { reply with Options := optDel reply.Options OptionClientIdentifier }

/-- The method `sendUnicast`.  `openLive` is the error of `pcap.OpenLive`
(`none`: the handle opens).  The layers are built and serialised, the error of
the serialiser ignored; when the handle does not open the method returns that
error and writes nothing; otherwise the serialised bytes are written
(`Res.ok`: they were handed to `WritePacketData`, whose own error only
selects a log line in the caller).  `Res.panic` is the panic of `genIP`. -/
def sendUnicast (s : dhcpd) (peer : UDPAddr) (m payload : DHCPv4)
    (openLive : Option String) : Res Sent × dhcpd :=
  match genIP s m.ClientHWAddr with
  | (none, s1) => (.panic, s1)
  | (some ip, s1) =>
    let l := createUnicastLayer s1 ip m.ClientHWAddr (peer.Port % 65536)
    let data := SerializeLayers s1.ifname l.1 l.2.1 l.2.2 payload
    match openLive with
    | some e => (.err e, s1)
    | none => (.ok data, s1)

/-- What one `handler` call did: what it wrote, in order, and whether the call
returned normally (`false`: it ended in a panic). -/
structure Handled where
  sends : List Sent
  returned : Bool
deriving DecidableEq, Repr

/-- The unicast branch shared by DISCOVER and a matching REQUEST: build the
payload of the given type and send it with `sendUnicast`; an error of either
step is logged and the call returns. -/
def replyUnicast (s : dhcpd) (peer : UDPAddr) (m : DHCPv4) (xid : Option (List Nat))
    (messageType : Nat) (openLive : Option String) : Handled × dhcpd :=
  match createUnicastPayload s xid m messageType with
  | (.err _, s1) => (⟨[], true⟩, s1)
  | (.panic, s1) => (⟨[], false⟩, s1)
  | (.ok payload, s1) =>
    match sendUnicast s1 peer m payload openLive with
    | (.panic, s2) => (⟨[], false⟩, s2)
    | (.err _, s2) => (⟨[], true⟩, s2)
    | (.ok f, s2) => (⟨[f], true⟩, s2)

/-- The method `handler`.  `m = none` is the nil message; `xid` is the outcome
of the transaction-id generation inside the reply skeleton and `openLive` the
error of opening the raw handle (`none`: it opens). -/
def handler (s : dhcpd) (peer : UDPAddr) (m : Option DHCPv4) (xid : Option (List Nat))
    (openLive : Option String) : Handled × dhcpd :=
  match m with
  | none => (⟨[], true⟩, s)
  | some m =>
    if m.OpCode ≠ OpcodeBootRequest then (⟨[], true⟩, s)
    else if m.MessageType = MessageTypeDiscover then
      replyUnicast s peer m xid MessageTypeOffer openLive
    else if m.MessageType = MessageTypeRequest then
      match m.RequestedIPAddress with
      | none => (⟨[], true⟩, s)
      | some requested =>
        match genIP s m.ClientHWAddr with
        | (none, s1) => (⟨[], false⟩, s1)
        | (some ip, s1) =>
          if ipToComparator requested = ipToComparator ip then
            replyUnicast s1 peer m xid MessageTypeAck openLive
          else
            match createBroadcastPayload s1 xid m MessageTypeNak with
            | .error _ => (⟨[], true⟩, s1)
            | .ok payload => (⟨[.socket peer payload], true⟩, s1)
    else (⟨[], true⟩, s)

/-! ## Startup -/

/-- What `CreateServer` did: the error it returned (`none` for `nil`), whether
it went on to create the listener (`server4.NewServer`) and to start it
(`server.Serve`), and the server state the listener was created with. -/
structure Started where
  err : Option String
  listenerCreated : Bool
  listenerStarted : Bool
  server : Option dhcpd
deriving DecidableEq, Repr

/-- The function `CreateServer`.  The external collaborators are given by their
answers: `iface` is what `netlink.GetLocalInterface` resolves (local IP, mask
and hardware address, or an error), `newServer` the error of
`server4.NewServer` (`none` for success) and `serve` what `server.Serve`
returns in the end. -/
def CreateServer (ifname : String) (iface : Except String (List Nat × List Nat × List Nat))
    (newServer serve : Option String) : Started :=
  match iface with
  | .error e => ⟨some e, false, false, none⟩
  | .ok (localIp, localMask, localMac) =>
    let dhcpd0 : dhcpd :=
      { macs := SyncList.empty, ifname := ifname, localMask := localMask,
        localIp := localIp, localMac := localMac, serverPort := 67 }
    if ipToComparator dhcpd0.localMask ≠ ipToComparator [255, 255, 255, 0] then
      ⟨some ("网卡 " ++ ifname ++ " 配置的子网掩码不是255.255.255.0"), false, false, none⟩
    else
      match newServer with
      | some e => ⟨some e, true, false, some dhcpd0⟩
      | none => ⟨serve, true, true, some dhcpd0⟩

/-! ## Sequential executions -/

/-- One call made on the server state: a direct `genIP` call or a `handler`
call. -/
inductive Call where
  | genIP (hardwareAddr : List Nat)
  | handler (peer : UDPAddr) (m : Option DHCPv4) (xid : Option (List Nat))
      (openLive : Option String)
deriving DecidableEq, Repr

/-- The state a call leaves behind. -/
def Call.run (s : dhcpd) : Call → dhcpd
  | .genIP hw => (Dhcpd.genIP s hw).2
  | .handler peer m xid openLive => (Dhcpd.handler s peer m xid openLive).2

/-- The state after a sequence of calls run one after another. -/
def runCalls (s : dhcpd) (calls : List Call) : dhcpd := calls.foldl Call.run s

/-- States reachable from an empty registry by sequential calls. -/
inductive Reachable : dhcpd → Prop where
  | start (s : dhcpd) (h : s.macs = SyncList.empty) : Reachable s
  | step (s : dhcpd) (c : Call) (h : Reachable s) : Reachable (c.run s)

/-- The state `s2` has the configuration of `s1` and a registry that starts
with the registry of `s1`. -/
def Extends (s1 s2 : dhcpd) : Prop :=
  ∃ t, s2 = { s1 with macs := ⟨s1.macs.items ++ t⟩ }

/-- The distinct elements of a sequence in order of first appearance. -/
def firstSeen {α : Type} [DecidableEq α] : List α → List α
  | [] => []
  | x :: xs => x :: (firstSeen xs).filter (fun y => y ≠ x)

/-- The DHCP reply carried by a transmission. -/
def Sent.payload : Sent → DHCPv4
  | .frame _ _ _ _ p => p
  | .socket _ p => p
  | .withoutEthernet _ _ _ p => p
  | .withoutNetwork _ _ p => p

/-- Whether a transmission is a complete hand-built raw frame (rather than a
write through the listener's socket or incomplete bytes). -/
def Sent.isFrame : Sent → Bool
  | .frame _ _ _ _ _ => true
  | _ => false

/-- Whether a transmission went through the listener's socket (rather than to
the raw handle). -/
def Sent.isSocket : Sent → Bool
  | .socket _ _ => true
  | _ => false

/-- Sequential `handler` calls, one after another: what each call did, in call
order, and the final state. -/
def handlers (s : dhcpd) :
    List (UDPAddr × Option DHCPv4 × Option (List Nat) × Option String) →
      List Handled × dhcpd
  | [] => ([], s)
  | (peer, m, xid, openLive) :: rest =>
    let r := handler s peer m xid openLive
    let rs := handlers r.2 rest
    (r.1 :: rs.1, rs.2)

/-! ## Concurrent `genIP` calls -/

/-- Where a `genIP` call stands between its registry operations. -/
inductive Pc where
  | find
  | size
  | add (ip3 : Nat)
  | ret (ip3 : Nat)
deriving DecidableEq, Repr

/-- A `genIP` call in flight: its hardware address (as `[6]byte`) and where it
stands. -/
structure Task where
  mac : List Nat
  pc : Pc
deriving DecidableEq, Repr

/-- A `genIP` call about to start. -/
def Task.start (hardwareAddr : List Nat) : Task := ⟨copyInto 6 hardwareAddr, .find⟩

/-- One registry operation of a `genIP` call in flight, each operation of the
registry taken as atomic: `Find`, then on a miss `Size`, then `Add`. -/
def Task.step (reg : SyncList (List Nat)) (t : Task) : SyncList (List Nat) × Task :=
  match t.pc with
  | .find =>
    match reg.Find t.mac with
    | some i => (reg, { t with pc := .ret ((i + 2) % 256) })
    | none => (reg, { t with pc := .size })
  | .size => (reg, { t with pc := .add ((reg.Size + 2) % 256) })
  | .add ip3 => (reg.Add t.mac, { t with pc := .ret ip3 })
  | .ret _ => (reg, t)

/-- An interleaving: the schedule names, step by step, which call in flight
performs its next registry operation. -/
def interleave (reg : SyncList (List Nat)) (tasks : List Task) :
    List Nat → SyncList (List Nat) × List Task
  | [] => (reg, tasks)
  | i :: rest =>
    match tasks[i]? with
    | none => interleave reg tasks rest
    | some t => interleave (t.step reg).1 (tasks.set i (t.step reg).2) rest

/-! ## The example network of the end-to-end scenario -/

/-- A server on `192.168.10.1/24` with an empty registry. -/
def exampleServer : dhcpd :=
  { macs := SyncList.empty, ifname := "eth0", localMask := [255, 255, 255, 0],
    localIp := [192, 168, 10, 1], localMac := [2, 0, 0, 0, 0, 1], serverPort := 67 }

/-- Client A, `aa:bb:cc:dd:ee:01`. -/
def macA : List Nat := [170, 187, 204, 221, 238, 1]

/-- Client B, `aa:bb:cc:dd:ee:02`. -/
def macB : List Nat := [170, 187, 204, 221, 238, 2]

/-- The source address of the example clients: port 68 of the unspecified
address. -/
def examplePeer : UDPAddr := ⟨[0, 0, 0, 0], 68⟩

/-- A boot request of the given message type and options from a client. -/
def exampleMessage (hw : List Nat) (options : List (Nat × List Nat)) : DHCPv4 :=
  { OpCode := OpcodeBootRequest, HWType := HWTypeEthernet, ClientHWAddr := hw, HopCount := 0,
    TransactionID := [1, 2, 3, 4], NumSeconds := 0, Flags := 0, ClientIPAddr := IPv4zero,
    YourIPAddr := IPv4zero, ServerIPAddr := IPv4zero, GatewayIPAddr := IPv4zero,
    ServerHostName := "", BootFileName := "", Options := options }

/-- A DISCOVER from a client. -/
def exampleDiscover (hw : List Nat) : DHCPv4 :=
  exampleMessage hw [(OptionDHCPMessageType, [MessageTypeDiscover])]

/-- A REQUEST from a client for an address. -/
def exampleRequest (hw ip : List Nat) : DHCPv4 :=
  exampleMessage hw [(OptionDHCPMessageType, [MessageTypeRequest]), (OptionRequestedIPAddress, ip)]

/-- The clients `00:00:00:00:00:00`, `00:00:00:00:00:01`, ... (`n` of them,
`n ≤ 256`). -/
def exampleClients (n : Nat) : List (List Nat) :=
  (List.range n).map (fun k => [0, 0, 0, 0, 0, k])

/-! ## Lemmas on the registry -/

theorem copyInto_of_length (n : Nat) (l : List Nat) (h : l.length = n) : copyInto n l = l := by
  simp [copyInto, h]

theorem copyInto_length (n : Nat) (l : List Nat) : (copyInto n l).length = n := by
  simp [copyInto]; omega

theorem findIndex_eq_none {α : Type} [DecidableEq α] (l : List α) (v : α) :
    findIndex l v = none ↔ v ∉ l := by
  induction l with
  | nil => simp [findIndex]
  | cons x xs ih =>
    by_cases hx : x = v
    · simp [findIndex, hx]
    · have hx2 : ¬ v = x := fun h => hx h.symm
      simp [findIndex, hx, hx2, ih]

theorem findIndex_of_mem {α : Type} [DecidableEq α] (l : List α) (v : α) (h : v ∈ l) :
    ∃ i, findIndex l v = some i := by
  cases hf : findIndex l v with
  | none => exact absurd h ((findIndex_eq_none l v).1 hf)
  | some i => exact ⟨i, rfl⟩

theorem findIndex_some {α : Type} [DecidableEq α] (l : List α) (v : α) (i : Nat)
    (h : findIndex l v = some i) : l[i]? = some v := by
  induction l generalizing i with
  | nil => simp [findIndex] at h
  | cons x xs ih =>
    by_cases hx : x = v
    · simp [findIndex, hx] at h
      subst h; simp [hx]
    · simp only [findIndex, hx, if_false] at h
      cases hf : findIndex xs v with
      | none => simp [hf] at h
      | some j =>
        simp [hf] at h
        subst h
        simpa using ih j hf

theorem findIndex_lt {α : Type} [DecidableEq α] (l : List α) (v : α) (i : Nat)
    (h : findIndex l v = some i) : i < l.length ∧ v ∈ l := by
  have hg := findIndex_some l v i h
  have hlt : i < l.length := by
    by_contra hc
    rw [List.getElem?_eq_none (by omega)] at hg
    cases hg
  refine ⟨hlt, ?_⟩
  rw [List.getElem?_eq_getElem hlt] at hg
  cases hg
  exact List.getElem_mem hlt

theorem findIndex_append_of_mem {α : Type} [DecidableEq α] (l t : List α) (v : α) (h : v ∈ l) :
    findIndex (l ++ t) v = findIndex l v := by
  induction l with
  | nil => simp at h
  | cons x xs ih =>
    by_cases hx : x = v
    · simp [findIndex, hx]
    · have hx2 : ¬ v = x := fun h => hx h.symm
      have hm : v ∈ xs := by
        rcases List.mem_cons.1 h with h1 | h1
        · exact absurd h1 hx2
        · exact h1
      simp [findIndex, hx, ih hm]

theorem findIndex_append_not_mem {α : Type} [DecidableEq α] (l t : List α) (v : α)
    (h : v ∉ l) : findIndex (l ++ v :: t) v = some l.length := by
  induction l with
  | nil => simp [findIndex]
  | cons x xs ih =>
    have hx : x ≠ v := fun e => h (by simp [e])
    have hm : v ∉ xs := fun e => h (by simp [e])
    simp [findIndex, hx, ih hm]

/-- The registry after one `genIP` call: unchanged when the address is known,
else the address appended. -/
theorem genIP_macs (s : dhcpd) (hw : List Nat) :
    (genIP s hw).2.macs.items =
      if copyInto 6 hw ∈ s.macs.items then s.macs.items
      else s.macs.items ++ [copyInto 6 hw] := by
  unfold genIP
  dsimp only
  cases hf : s.macs.Find (copyInto 6 hw) with
  | none =>
    have : copyInto 6 hw ∉ s.macs.items := (findIndex_eq_none _ _).1 hf
    simp [this, SyncList.Add]
  | some i =>
    have := (findIndex_lt _ _ _ hf).2
    simp [this]

/-- A `genIP` call changes nothing but the registry. -/
theorem genIP_config (s : dhcpd) (hw : List Nat) :
    (genIP s hw).2 = { s with macs := (genIP s hw).2.macs } := by
  unfold genIP
  dsimp only
  cases s.macs.Find (copyInto 6 hw) <;> rfl

/-- The IP a `genIP` call returns, by the index the address has afterwards. -/
theorem genIP_fst (s : dhcpd) (hw : List Nat) :
    ∃ i, findIndex (genIP s hw).2.macs.items (copyInto 6 hw) = some i ∧
      (genIP s hw).1 = mkIP s.localIp ((i + 2) % 256) := by
  rw [genIP_macs]
  unfold genIP
  dsimp only
  cases hf : s.macs.Find (copyInto 6 hw) with
  | none =>
    have hn : copyInto 6 hw ∉ s.macs.items := (findIndex_eq_none _ _).1 hf
    refine ⟨s.macs.items.length, ?_, ?_⟩
    · simp [hn, findIndex_append_not_mem]
    · simp [SyncList.Size]
  | some i =>
    have hm := (findIndex_lt _ _ _ hf).2
    exact ⟨i, by simpa [hm] using hf, rfl⟩

theorem genIP_localIp (s : dhcpd) (hw : List Nat) : (genIP s hw).2.localIp = s.localIp := by
  rw [genIP_config]

/-- A `genIP` call keeps the registry as a leading part and appends at most one
entry. -/
theorem genIP_append (s : dhcpd) (hw : List Nat) :
    ∃ t, (genIP s hw).2.macs.items = s.macs.items ++ t ∧ t.length ≤ 1 := by
  rw [genIP_macs]
  by_cases h : copyInto 6 hw ∈ s.macs.items
  · exact ⟨[], by simp [h]⟩
  · exact ⟨[copyInto 6 hw], by simp [h]⟩

theorem genIPs_localIp (s : dhcpd) (hws : List (List Nat)) :
    (genIPs s hws).2.localIp = s.localIp := by
  induction hws generalizing s with
  | nil => rfl
  | cons hw rest ih => simp [genIPs, ih, genIP_localIp]

theorem genIPs_append (s : dhcpd) (hws : List (List Nat)) :
    ∃ t, (genIPs s hws).2.macs.items = s.macs.items ++ t := by
  induction hws generalizing s with
  | nil => exact ⟨[], by simp [genIPs]⟩
  | cons hw rest ih =>
    obtain ⟨t1, h1, _⟩ := genIP_append s hw
    obtain ⟨t2, h2⟩ := ih (genIP s hw).2
    exact ⟨t1 ++ t2, by simp [genIPs, h2, h1]⟩

theorem genIPs_length (s : dhcpd) (hws : List (List Nat)) :
    (genIPs s hws).1.length = hws.length := by
  induction hws generalizing s with
  | nil => rfl
  | cons hw rest ih => simp [genIPs, ih]

/-- The registry after sequential `genIP` calls: the old entries, then the new
addresses in order of first appearance. -/
theorem genIPs_macs (s : dhcpd) (hws : List (List Nat)) :
    (genIPs s hws).2.macs.items =
      s.macs.items ++
        (firstSeen (hws.map (copyInto 6))).filter (fun y => decide (y ∉ s.macs.items)) := by
  induction hws generalizing s with
  | nil => simp [genIPs, firstSeen]
  | cons hw rest ih =>
    simp only [genIPs, List.map_cons, firstSeen]
    rw [ih, genIP_macs]
    by_cases h : copyInto 6 hw ∈ s.macs.items
    · simp only [h, if_true, List.filter_cons, not_true_eq_false, decide_False, Bool.false_eq_true,
        if_false, List.filter_filter]
      congr 1
      apply List.filter_congr
      intro y _
      by_cases hy : y ∈ s.macs.items
      · simp [hy]
      · have : y ≠ copyInto 6 hw := fun e => hy (e ▸ h)
        simp [hy, this]
    · simp only [h, if_false, List.filter_cons, not_false_eq_true, decide_True, if_true,
        List.filter_filter, List.append_assoc, List.singleton_append]
      congr 2
      apply List.filter_congr
      intro y _
      by_cases hy : y ∈ s.macs.items <;> by_cases hy2 : y = copyInto 6 hw <;> simp [hy, hy2]

/-- Every IP returned in a run of sequential `genIP` calls is computed from the
index the address has in the final registry. -/
theorem genIPs_fst (s : dhcpd) (hws : List (List Nat)) :
    (genIPs s hws).1 = hws.map (fun hw =>
      (findIndex (genIPs s hws).2.macs.items (copyInto 6 hw)).bind
        (fun i => mkIP s.localIp ((i + 2) % 256))) := by
  induction hws generalizing s with
  | nil => rfl
  | cons hw rest ih =>
    simp only [genIPs, List.map_cons]
    obtain ⟨i, hi, hr⟩ := genIP_fst s hw
    obtain ⟨t, ht⟩ := genIPs_append (genIP s hw).2 rest
    have hm := (findIndex_lt _ _ _ hi).2
    rw [ih, ht, findIndex_append_of_mem _ _ _ hm, hi, hr, genIP_localIp]
    rw [← ht]
    rfl

theorem mem_firstSeen {α : Type} [DecidableEq α] (l : List α) (v : α) :
    v ∈ firstSeen l ↔ v ∈ l := by
  induction l with
  | nil => simp [firstSeen]
  | cons x xs ih =>
    by_cases hx : v = x
    · simp [firstSeen, hx]
    · simp [firstSeen, hx, ih, List.mem_filter]

/-! ## Lemmas on states -/

theorem Extends.refl (s : dhcpd) : Extends s s := ⟨[], by simp⟩

theorem Extends.trans {s1 s2 s3 : dhcpd} (h12 : Extends s1 s2) (h23 : Extends s2 s3) :
    Extends s1 s3 := by
  obtain ⟨t1, rfl⟩ := h12
  obtain ⟨t2, rfl⟩ := h23
  exact ⟨t1 ++ t2, by simp⟩

theorem Extends.localIp {s1 s2 : dhcpd} (h : Extends s1 s2) : s2.localIp = s1.localIp := by
  obtain ⟨t, rfl⟩ := h
  rfl

theorem Extends.items {s1 s2 : dhcpd} (h : Extends s1 s2) :
    ∃ t, s2.macs.items = s1.macs.items ++ t := by
  obtain ⟨t, rfl⟩ := h
  exact ⟨t, rfl⟩

theorem genIP_of_mem (s : dhcpd) (hw : List Nat) (h : copyInto 6 hw ∈ s.macs.items) :
    (genIP s hw).2 = s := by
  rw [genIP_config]
  have : (genIP s hw).2.macs = s.macs := by
    have h2 := genIP_macs s hw
    simp only [h, if_true] at h2
    cases hm : (genIP s hw).2.macs
    cases hs : s.macs
    simp_all
  rw [this]

theorem genIP_mem_after (s : dhcpd) (hw : List Nat) :
    copyInto 6 hw ∈ (genIP s hw).2.macs.items := by
  rw [genIP_macs]
  by_cases h : copyInto 6 hw ∈ s.macs.items <;> simp [h]

theorem genIP_extends (s : dhcpd) (hw : List Nat) : Extends s (genIP s hw).2 := by
  obtain ⟨t, ht, _⟩ := genIP_append s hw
  refine ⟨t, ?_⟩
  rw [genIP_config, ← ht]

/-- Once an address is registered, `genIP` returns the same IP for it in every
later state. -/
theorem genIP_stable (s s2 : dhcpd) (hw : List Nat) (h : copyInto 6 hw ∈ s.macs.items)
    (he : Extends s s2) : genIP s2 hw = ((genIP s hw).1, s2) := by
  obtain ⟨t, ht⟩ := he.items
  have h2 : copyInto 6 hw ∈ s2.macs.items := by rw [ht]; simp [h]
  obtain ⟨i, hi, hr⟩ := genIP_fst s hw
  obtain ⟨i2, hi2, hr2⟩ := genIP_fst s2 hw
  rw [genIP_of_mem s hw h] at hi
  rw [genIP_of_mem s2 hw h2, ht, findIndex_append_of_mem _ _ _ h, hi] at hi2
  cases hi2
  rw [he.localIp, ← hr] at hr2
  exact Prod.ext hr2 (genIP_of_mem s2 hw h2)

/-- A repeated `genIP` call for the same address returns the same IP and
leaves the state as it is. -/
theorem genIP_twice (s : dhcpd) (hw : List Nat) :
    genIP (genIP s hw).2 hw = genIP s hw := by
  obtain ⟨i, hi, hr⟩ := genIP_fst s hw
  obtain ⟨i2, hi2, hr2⟩ := genIP_fst (genIP s hw).2 hw
  have hm := genIP_mem_after s hw
  rw [genIP_of_mem _ hw hm, hi] at hi2
  cases hi2
  rw [genIP_localIp, ← hr] at hr2
  exact Prod.ext hr2 (genIP_of_mem _ hw hm)

/-! ## Lemmas on options and replies -/

theorem optGet_cons (e : Nat × List Nat) (o : List (Nat × List Nat)) (c : Nat) :
    optGet (e :: o) c = if e.1 = c then some e.2 else optGet o c := by
  by_cases h : e.1 = c <;> simp [optGet, List.find?_cons, h]

theorem optDel_cons (e : Nat × List Nat) (o : List (Nat × List Nat)) (c : Nat) :
    optDel (e :: o) c = if e.1 = c then optDel o c else e :: optDel o c := by
  by_cases h : e.1 = c <;> simp [optDel, h]

theorem optGet_optDel (o : List (Nat × List Nat)) (c c2 : Nat) :
    optGet (optDel o c) c2 = if c2 = c then none else optGet o c2 := by
  induction o with
  | nil => simp [optGet, optDel]
  | cons e rest ih =>
    rw [optDel_cons, optGet_cons]
    by_cases h1 : e.1 = c
    · by_cases h2 : c2 = c
      · subst h2
        simpa [h1] using ih
      · have h3 : ¬ c = c2 := fun h => h2 h.symm
        simp [h1, h2, h3, ih]
    · by_cases h3 : e.1 = c2
      · have h2 : ¬ c2 = c := fun h => h1 (h3.trans h)
        simp [h1, h2, h3, optGet_cons]
      · simp [h1, h3, optGet_cons, ih]

theorem optGet_optUpdate (o : List (Nat × List Nat)) (c c2 : Nat) (v : List Nat) :
    optGet (optUpdate o c v) c2 = if c2 = c then some v else optGet (optDel o c) c2 := by
  by_cases h : c2 = c
  · simp [optUpdate, optGet, h]
  · have h2 : ¬ c = c2 := fun e => h e.symm
    simp [optUpdate, optGet, h, h2, List.find?_cons]

theorem mkIP_length (l : List Nat) (ip3 : Nat) (ip : List Nat) (h : mkIP l ip3 = some ip) :
    ip.length = 4 := by
  unfold mkIP at h
  split at h
  · cases h; rfl
  · cases h

theorem genIP_length (s : dhcpd) (hw ip : List Nat) (h : (genIP s hw).1 = some ip) :
    ip.length = 4 := by
  obtain ⟨i, _, hr⟩ := genIP_fst s hw
  rw [hr] at h
  exact mkIP_length _ _ _ h

theorem requested_length (m : DHCPv4) (r : List Nat) (h : m.RequestedIPAddress = some r) :
    r.length = 4 := by
  unfold DHCPv4.RequestedIPAddress at h
  split at h
  · split at h
    · cases h; assumption
    · cases h
  · cases h

theorem newReply_some (xid : Option (List Nat)) (m skel : DHCPv4)
    (h : NewReplyFromRequest xid m = .ok skel) : ∃ x, xid = some x := by
  cases xid with
  | none => simp [NewReplyFromRequest] at h
  | some x => exact ⟨x, rfl⟩

/-- The unicast payload when the skeleton is built and `genIP` assigns `ip`. -/
theorem createUnicastPayload_ok (s : dhcpd) (x : List Nat) (m : DHCPv4) (t : Nat)
    (ip : List Nat) (hg : (genIP s m.ClientHWAddr).1 = some ip) :
    ∃ payload, createUnicastPayload s (some x) m t = (.ok payload, (genIP s m.ClientHWAddr).2) ∧
      payload.MessageType = t ∧ payload.YourIPAddr = ip ∧ payload.ServerIPAddr = s.localIp ∧
      optGet payload.Options OptionServerIdentifier = some (ipBytes s.localIp) ∧
      optGet payload.Options OptionClientIdentifier = none ∧
      payload.IsBroadcast = false := by
  rcases hgen : genIP s m.ClientHWAddr with ⟨r, s1⟩
  rw [hgen] at hg
  simp only at hg
  subst hg
  refine ⟨_, by simp only [createUnicastPayload, NewReplyFromRequest, hgen]; rfl, ?_, rfl, rfl,
    ?_, ?_, ?_⟩
  · simp [DHCPv4.MessageType, DHCPv4.UpdateOption, DHCPv4.SetUnicast, optGet_optDel,
      optGet_optUpdate, OptionDHCPMessageType, OptionServerIdentifier, OptionIPAddressLeaseTime,
      OptionSubnetMask, OptionRouter, OptionClientIdentifier]
  · simp [DHCPv4.UpdateOption, DHCPv4.SetUnicast, optGet_optDel,
      optGet_optUpdate, OptionDHCPMessageType, OptionServerIdentifier, OptionIPAddressLeaseTime,
      OptionSubnetMask, OptionRouter, OptionClientIdentifier]
  · simp [optGet_optDel]
  · simp only [DHCPv4.IsBroadcast, DHCPv4.UpdateOption, DHCPv4.SetUnicast, beq_eq_false_iff_ne]
    have hz : (32767 : Nat) &&& 32768 = 0 := by decide
    rw [Nat.and_assoc, hz, Nat.and_zero]
    decide

theorem To4_of_length (ip : List Nat) (h : ip.length = 4) : To4 ip = some ip := by
  simp [To4, h]

/-- Well-formed layers (6-byte hardware addresses, 4-byte IP addresses) are
serialised into a complete frame. -/
theorem SerializeLayers_frame (ifname : String) (eth : Ethernet) (ipv4 : IPv4) (udp : UDP)
    (payload : DHCPv4) (hd : eth.DstMAC.length = 6) (hs : eth.SrcMAC.length = 6)
    (hsrc : ipv4.SrcIP.length = 4) (hdst : ipv4.DstIP.length = 4) :
    SerializeLayers ifname eth ipv4 udp payload = .frame ifname eth ipv4 udp payload := by
  unfold SerializeLayers
  rw [To4_of_length _ hsrc, To4_of_length _ hdst]
  simp [hd, hs]

/-- The unicast branch when the skeleton is built and `genIP` assigns `ip`:
nothing is written when the raw handle does not open, else the serialised
layers, addressed to the client, around the payload of
`createUnicastPayload`. -/
theorem replyUnicast_ok (s : dhcpd) (peer : UDPAddr) (x : List Nat) (m : DHCPv4) (t : Nat)
    (ip : List Nat) (openLive : Option String) (hg : (genIP s m.ClientHWAddr).1 = some ip) :
    ∃ payload, createUnicastPayload s (some x) m t = (.ok payload, (genIP s m.ClientHWAddr).2) ∧
      replyUnicast s peer m (some x) t openLive =
        (⟨match openLive with
            | some _ => []
            | none =>
              [SerializeLayers s.ifname ⟨s.localMac, m.ClientHWAddr, EthernetTypeIPv4⟩
                ⟨s.localIp, ip, IPProtocolUDP, IPv4DontFragment, 4, 128⟩
                ⟨s.serverPort % 65536, peer.Port % 65536⟩ payload], true⟩,
          (genIP s m.ClientHWAddr).2) := by
  obtain ⟨payload, hp, _⟩ := createUnicastPayload_ok s x m t ip hg
  refine ⟨payload, hp, ?_⟩
  have h2 : genIP (genIP s m.ClientHWAddr).2 m.ClientHWAddr = (some ip, (genIP s m.ClientHWAddr).2) := by
    rw [genIP_twice]
    exact Prod.ext hg rfl
  simp only [replyUnicast, hp, sendUnicast, h2, createUnicastLayer]
  cases openLive with
  | some e => rfl
  | none =>
    simp only
    rw [genIP_config]

/-- The state the unicast branch leaves: untouched when the skeleton fails,
else the state after `genIP`. -/
theorem replyUnicast_snd (s : dhcpd) (peer : UDPAddr) (xid : Option (List Nat)) (m : DHCPv4)
    (t : Nat) (openLive : Option String) :
    (replyUnicast s peer m xid t openLive).2 =
      match xid with
      | none => s
      | some _ => (genIP s m.ClientHWAddr).2 := by
  cases xid with
  | none => simp [replyUnicast, createUnicastPayload, NewReplyFromRequest]
  | some x =>
    cases hg : (genIP s m.ClientHWAddr).1 with
    | some ip =>
      obtain ⟨payload, _, hr⟩ := replyUnicast_ok s peer x m t ip openLive hg
      rw [hr]
    | none =>
      have h2 : genIP s m.ClientHWAddr = (none, (genIP s m.ClientHWAddr).2) := Prod.ext hg rfl
      simp only [replyUnicast, createUnicastPayload, NewReplyFromRequest]
      rw [h2]

/-- The state a `handler` call leaves: the state before, or the state after a
`genIP` call for the client hardware address of the message. -/
theorem handler_snd (s : dhcpd) (peer : UDPAddr) (m : Option DHCPv4) (xid : Option (List Nat))
    (openLive : Option String) :
    (handler s peer m xid openLive).2 = s ∨
      ∃ msg, m = some msg ∧
        (handler s peer m xid openLive).2 = (genIP s msg.ClientHWAddr).2 := by
  cases m with
  | none => exact Or.inl rfl
  | some msg =>
    unfold handler
    simp only
    split
    · exact Or.inl rfl
    · split
      · rw [replyUnicast_snd]
        cases xid
        · exact Or.inl rfl
        · exact Or.inr ⟨msg, rfl, rfl⟩
      · split
        · split
          · exact Or.inl rfl
          · refine Or.inr ⟨msg, rfl, ?_⟩
            split
            · next h => rw [h]
            · next h =>
              have hs : (genIP s msg.ClientHWAddr).2 = _ := congrArg Prod.snd h
              simp only at hs
              split
              · rw [replyUnicast_snd, ← hs]
                cases xid
                · rfl
                · simp only
                  rw [genIP_twice]
              · split <;> exact hs.symm
        · exact Or.inl rfl

theorem handler_extends (s : dhcpd) (peer : UDPAddr) (m : Option DHCPv4)
    (xid : Option (List Nat)) (openLive : Option String) :
    Extends s (handler s peer m xid openLive).2 := by
  rcases handler_snd s peer m xid openLive with h | ⟨msg, _, h⟩
  · rw [h]; exact Extends.refl s
  · rw [h]; exact genIP_extends s _

theorem run_extends (s : dhcpd) (c : Call) : Extends s (c.run s) := by
  cases c with
  | genIP hw => exact genIP_extends s hw
  | handler peer m xid openLive => exact handler_extends s peer m xid openLive

theorem runCalls_extends (s : dhcpd) (calls : List Call) : Extends s (runCalls s calls) := by
  induction calls generalizing s with
  | nil => exact Extends.refl s
  | cons c rest ih => exact (run_extends s c).trans (ih (c.run s))

theorem replyUnicast_panic (s : dhcpd) (peer : UDPAddr) (x : List Nat) (m : DHCPv4) (t : Nat)
    (openLive : Option String) (hg : (genIP s m.ClientHWAddr).1 = none) :
    (replyUnicast s peer m (some x) t openLive).1 = ⟨[], false⟩ := by
  have h2 : genIP s m.ClientHWAddr = (none, (genIP s m.ClientHWAddr).2) := Prod.ext hg rfl
  simp only [replyUnicast, createUnicastPayload, NewReplyFromRequest]
  rw [h2]

theorem handler_discover (s : dhcpd) (peer : UDPAddr) (m : DHCPv4) (xid : Option (List Nat))
    (openLive : Option String)
    (hop : m.OpCode = OpcodeBootRequest) (hmt : m.MessageType = MessageTypeDiscover) :
    handler s peer (some m) xid openLive =
      replyUnicast s peer m xid MessageTypeOffer openLive := by
  simp [handler, hop, hmt]

theorem genIP_ifname (s : dhcpd) (hw : List Nat) : (genIP s hw).2.ifname = s.ifname := by
  rw [genIP_config]

theorem genIP_localMac (s : dhcpd) (hw : List Nat) : (genIP s hw).2.localMac = s.localMac := by
  rw [genIP_config]

theorem genIP_serverPort (s : dhcpd) (hw : List Nat) :
    (genIP s hw).2.serverPort = s.serverPort := by
  rw [genIP_config]

theorem ipBytes_of_length (ip : List Nat) (h : ip.length = 4) : ipBytes ip = ip := by
  simp [ipBytes, To4, h]

theorem or_and_bit (f b : Nat) : (f ||| b) &&& b = b := by
  apply Nat.eq_of_testBit_eq
  intro i
  rw [Nat.testBit_and, Nat.testBit_or]
  cases f.testBit i <;> cases b.testBit i <;> rfl

/-- The broadcast payload when the skeleton is built. -/
theorem createBroadcastPayload_ok (s : dhcpd) (x : List Nat) (m : DHCPv4) (t : Nat) :
    ∃ payload, createBroadcastPayload s (some x) m t = .ok payload ∧
      payload.MessageType = t ∧ payload.YourIPAddr = IPv4zero ∧
      optGet payload.Options OptionServerIdentifier = some (ipBytes s.localIp) ∧
      optGet payload.Options OptionMessage =
        some (stringBytes "requested address not available") ∧
      optGet payload.Options OptionClientIdentifier = none ∧
      payload.IsBroadcast = true := by
  refine ⟨_, by simp only [createBroadcastPayload, NewReplyFromRequest]; rfl, ?_, rfl, ?_, ?_, ?_, ?_⟩
  · simp [DHCPv4.MessageType, DHCPv4.UpdateOption, DHCPv4.SetBroadcast, optGet_optDel,
      optGet_optUpdate, OptionDHCPMessageType, OptionServerIdentifier, OptionMessage,
      OptionClientIdentifier]
  · simp [DHCPv4.UpdateOption, DHCPv4.SetBroadcast, optGet_optDel,
      optGet_optUpdate, OptionDHCPMessageType, OptionServerIdentifier, OptionMessage,
      OptionClientIdentifier]
  · simp [DHCPv4.UpdateOption, DHCPv4.SetBroadcast, optGet_optDel,
      optGet_optUpdate, OptionDHCPMessageType, OptionServerIdentifier, OptionMessage,
      OptionClientIdentifier]
  · simp [optGet_optDel]
  · simp only [DHCPv4.IsBroadcast, DHCPv4.UpdateOption, DHCPv4.SetBroadcast, beq_iff_eq]
    exact or_and_bit _ _

/-- The REQUEST branch of `handler`, once the requested IP is present and
`genIP` has assigned `ip`. -/
theorem handler_request (s : dhcpd) (peer : UDPAddr) (m : DHCPv4) (xid : Option (List Nat))
    (requested ip : List Nat) (openLive : Option String)
    (hop : m.OpCode = OpcodeBootRequest) (hmt : m.MessageType = MessageTypeRequest)
    (hreq : m.RequestedIPAddress = some requested)
    (hg : (genIP s m.ClientHWAddr).1 = some ip) :
    handler s peer (some m) xid openLive =
      if requested = ip then
        replyUnicast (genIP s m.ClientHWAddr).2 peer m xid MessageTypeAck openLive
      else
        match createBroadcastPayload (genIP s m.ClientHWAddr).2 xid m MessageTypeNak with
        | .error _ => (⟨[], true⟩, (genIP s m.ClientHWAddr).2)
        | .ok payload => (⟨[.socket peer payload], true⟩, (genIP s m.ClientHWAddr).2) := by
  have h2 : genIP s m.ClientHWAddr = (some ip, (genIP s m.ClientHWAddr).2) := Prod.ext hg rfl
  have hc : (ipToComparator requested = ipToComparator ip) ↔ requested = ip := by
    unfold ipToComparator
    rw [copyInto_of_length 4 _ (requested_length m _ hreq),
      copyInto_of_length 4 _ (genIP_length s _ _ hg)]
  have hd : MessageTypeRequest ≠ MessageTypeDiscover := by decide
  unfold handler
  simp only [hop, hmt, hreq, hd, ne_eq, not_true_eq_false, if_false, if_true]
  rw [h2]
  simp only [hc]

/-! ## Lemmas on reachable states and on many clients -/

theorem reachable_genIPs (s : dhcpd) (hws : List (List Nat)) (h : Reachable s) :
    Reachable (genIPs s hws).2 := by
  induction hws generalizing s with
  | nil => exact h
  | cons hw rest ih => exact ih _ (Reachable.step s (Call.genIP hw) h)

theorem firstSeen_of_nodup {α : Type} [DecidableEq α] (l : List α) (h : l.Nodup) :
    firstSeen l = l := by
  induction l with
  | nil => rfl
  | cons x xs ih =>
    have hx : x ∉ xs := (List.nodup_cons.1 h).1
    rw [firstSeen, ih (List.nodup_cons.1 h).2, List.filter_eq_self.2]
    intro y hy
    have : y ≠ x := fun e => hx (e ▸ hy)
    simpa using this

theorem exampleClients_nodup (n : Nat) : (exampleClients n).Nodup := by
  unfold exampleClients
  apply List.Nodup.map _ (List.nodup_range n)
  intro a b hab
  simpa using hab

/-- The registry after the example clients have registered one after another on
the example network. -/
theorem exampleClients_registered (n : Nat) :
    (genIPs exampleServer (exampleClients n)).2.macs.items = exampleClients n := by
  have hmap : (exampleClients n).map (copyInto 6) = exampleClients n := by
    unfold exampleClients
    rw [List.map_map]
    apply List.map_congr_left
    intro k _
    rfl
  rw [genIPs_macs, hmap, firstSeen_of_nodup _ (exampleClients_nodup n)]
  simp [exampleServer, SyncList.empty]

/-- On the example network, with the `n` example clients registered, a further
client `00:00:00:00:01:00` receives the last octet `(n + 2) % 256`. -/
theorem exampleClients_next (n : Nat) :
    (genIP (genIPs exampleServer (exampleClients n)).2 [0, 0, 0, 0, 1, 0]).1 =
      some [192, 168, 10, (n + 2) % 256] := by
  have hc : copyInto 6 [0, 0, 0, 0, 1, 0] = [0, 0, 0, 0, 1, 0] := rfl
  have hn : [0, 0, 0, 0, 1, 0] ∉ (genIPs exampleServer (exampleClients n)).2.macs.items := by
    rw [exampleClients_registered]
    simp [exampleClients]
  obtain ⟨i, hi, hr⟩ := genIP_fst (genIPs exampleServer (exampleClients n)).2 [0, 0, 0, 0, 1, 0]
  rw [genIP_macs, hc, if_neg hn, findIndex_append_not_mem _ _ _ hn,
    exampleClients_registered] at hi
  cases hi
  rw [hr, genIPs_localIp]
  simp [exampleClients, exampleServer, mkIP]

/-- A single `genIP` call in flight, run to its end without interruption, does
to the registry what `genIP` does and returns the last octet `genIP` returns. -/
theorem interleave_alone (s : dhcpd) (hw : List Nat) :
    ∃ ip3, interleave s.macs [Task.start hw] [0, 0, 0] =
        ((genIP s hw).2.macs, [⟨copyInto 6 hw, .ret ip3⟩]) ∧
      (genIP s hw).1 = mkIP s.localIp ip3 := by
  unfold genIP
  dsimp only
  cases hf : s.macs.Find (copyInto 6 hw) with
  | some i =>
    exact ⟨(i + 2) % 256, by simp [interleave, Task.start, Task.step, hf], rfl⟩
  | none =>
    exact ⟨(s.macs.Size + 2) % 256, by simp [interleave, Task.start, Task.step, hf], rfl⟩

theorem genIP_nodup (s : dhcpd) (hw : List Nat) (h : s.macs.items.Nodup) :
    (genIP s hw).2.macs.items.Nodup := by
  rw [genIP_macs]
  by_cases hm : copyInto 6 hw ∈ s.macs.items
  · simpa [hm] using h
  · simp only [hm, if_false]
    exact List.Nodup.append h (List.nodup_singleton _) (by simpa using hm)

theorem run_nodup (s : dhcpd) (c : Call) (h : s.macs.items.Nodup) :
    (c.run s).macs.items.Nodup := by
  cases c with
  | genIP hw => exact genIP_nodup s hw h
  | handler peer m xid openLive =>
    rcases handler_snd s peer m xid openLive with e | ⟨msg, _, e⟩
    · simpa [Call.run, e] using h
    · simpa [Call.run, e] using genIP_nodup s _ h

theorem reachable_nodup (s : dhcpd) (h : Reachable s) : s.macs.items.Nodup := by
  induction h with
  | start s h0 => simp [h0, SyncList.empty]
  | step s c _ ih => exact run_nodup s c ih

theorem run_append (s : dhcpd) (c : Call) :
    ∃ t, (c.run s).macs.items = s.macs.items ++ t ∧ t.length ≤ 1 := by
  cases c with
  | genIP hw => exact genIP_append s hw
  | handler peer m xid openLive =>
    rcases handler_snd s peer m xid openLive with e | ⟨msg, _, e⟩
    · exact ⟨[], by simp [Call.run, e]⟩
    · simpa [Call.run, e] using genIP_append s msg.ClientHWAddr

/-! ## Lemmas on the branches of `handler` -/

/-- The drop cases of `handler`: nothing is sent and the state is untouched. -/
theorem handler_drop (s : dhcpd) (peer : UDPAddr) (m : Option DHCPv4)
    (xid : Option (List Nat)) (openLive : Option String)
    (h : m = none ∨ ∃ msg, m = some msg ∧
      (msg.OpCode ≠ OpcodeBootRequest ∨
        (msg.MessageType = MessageTypeRequest ∧ msg.RequestedIPAddress = none) ∨
        (msg.MessageType ≠ MessageTypeDiscover ∧ msg.MessageType ≠ MessageTypeRequest))) :
    handler s peer m xid openLive = (⟨[], true⟩, s) := by
  rcases h with rfl | ⟨msg, rfl, h⟩
  · rfl
  · unfold handler
    by_cases hop : msg.OpCode = OpcodeBootRequest
    · rcases h with h | ⟨hmt, hreq⟩ | ⟨h1, h2⟩
      · exact absurd hop h
      · have hd : MessageTypeRequest ≠ MessageTypeDiscover := by decide
        simp [hop, hmt, hreq, hd]
      · simp [hop, h1, h2]
    · simp [hop]

/-- A REQUEST whose requested IP is present, when `genIP` panics: nothing is
sent and the call does not return. -/
theorem handler_request_panic (s : dhcpd) (peer : UDPAddr) (m : DHCPv4)
    (xid : Option (List Nat)) (requested : List Nat) (openLive : Option String)
    (hop : m.OpCode = OpcodeBootRequest) (hmt : m.MessageType = MessageTypeRequest)
    (hreq : m.RequestedIPAddress = some requested)
    (hg : (genIP s m.ClientHWAddr).1 = none) :
    handler s peer (some m) xid openLive = (⟨[], false⟩, (genIP s m.ClientHWAddr).2) := by
  have h2 : genIP s m.ClientHWAddr = (none, (genIP s m.ClientHWAddr).2) := Prod.ext hg rfl
  have hd : MessageTypeRequest ≠ MessageTypeDiscover := by decide
  unfold handler
  simp only [hop, hmt, hreq, hd, ne_eq, not_true_eq_false, if_false, if_true]
  rw [h2]

/-- The state a REQUEST with a requested IP leaves: the state after `genIP`,
whatever the answer. -/
theorem handler_request_snd (s : dhcpd) (peer : UDPAddr) (m : DHCPv4)
    (xid : Option (List Nat)) (requested : List Nat) (openLive : Option String)
    (hop : m.OpCode = OpcodeBootRequest) (hmt : m.MessageType = MessageTypeRequest)
    (hreq : m.RequestedIPAddress = some requested) :
    (handler s peer (some m) xid openLive).2 = (genIP s m.ClientHWAddr).2 := by
  cases hg : (genIP s m.ClientHWAddr).1 with
  | none => rw [handler_request_panic s peer m xid requested openLive hop hmt hreq hg]
  | some ip =>
    rw [handler_request s peer m xid requested ip openLive hop hmt hreq hg]
    split
    · rw [replyUnicast_snd]
      cases xid with
      | none => rfl
      | some x =>
        simp only
        rw [genIP_twice]
    · split <;> rfl

/-- What is written after serialising keeps the payload and, when the IPv4
header is there, its 4-byte destination; it never goes through the socket. -/
theorem SerializeLayers_dst (ifname : String) (eth : Ethernet) (ipv4 : IPv4) (udp : UDP)
    (payload : DHCPv4) (hdst : ipv4.DstIP.length = 4) :
    (SerializeLayers ifname eth ipv4 udp payload).isSocket = false ∧
    (SerializeLayers ifname eth ipv4 udp payload).payload = payload ∧
    (∀ i e v u q, SerializeLayers ifname eth ipv4 udp payload = .frame i e v u q →
      v.DstIP = ipv4.DstIP) ∧
    (∀ i v u q, SerializeLayers ifname eth ipv4 udp payload = .withoutEthernet i v u q →
      v.DstIP = ipv4.DstIP) := by
  unfold SerializeLayers
  rw [To4_of_length _ hdst]
  cases To4 ipv4.SrcIP with
  | none =>
    refine ⟨rfl, rfl, ?_, ?_⟩
    · intro i e v u q h; cases h
    · intro i v u q h; cases h
  | some src =>
    by_cases hl : eth.DstMAC.length = 6 ∧ eth.SrcMAC.length = 6
    · simp only [hl, and_self, if_true]
      refine ⟨rfl, rfl, ?_, ?_⟩
      · intro i e v u q h; cases h; rfl
      · intro i v u q h; cases h
    · simp only [hl, if_false]
      refine ⟨rfl, rfl, ?_, ?_⟩
      · intro i e v u q h; cases h
      · intro i v u q h; cases h; rfl

/-- Everything the unicast branch writes goes to the raw handle, and an IPv4
header in it is addressed to the IP its payload assigns. -/
theorem replyUnicast_frame (s : dhcpd) (peer : UDPAddr) (m : DHCPv4) (xid : Option (List Nat))
    (t : Nat) (openLive : Option String) (f : Sent)
    (hf : f ∈ (replyUnicast s peer m xid t openLive).1.sends) :
    f.isSocket = false ∧
    (∀ i e v u q, f = Sent.frame i e v u q → v.DstIP = q.YourIPAddr) ∧
    (∀ i v u q, f = Sent.withoutEthernet i v u q → v.DstIP = q.YourIPAddr) := by
  cases xid with
  | none => simp [replyUnicast, createUnicastPayload, NewReplyFromRequest] at hf
  | some x =>
    cases hg : (genIP s m.ClientHWAddr).1 with
    | none =>
      rw [replyUnicast_panic s peer x m t openLive hg] at hf
      simp at hf
    | some ip =>
      obtain ⟨p, hp, _, hy, _⟩ := createUnicastPayload_ok s x m t ip hg
      obtain ⟨q, hq, hr⟩ := replyUnicast_ok s peer x m t ip openLive hg
      rw [hp] at hq
      cases hq
      rw [hr] at hf
      cases openLive with
      | some e => simp at hf
      | none =>
        simp only [List.mem_singleton] at hf
        obtain ⟨h1, h2, h3, h4⟩ := SerializeLayers_dst s.ifname
          ⟨s.localMac, m.ClientHWAddr, EthernetTypeIPv4⟩
          ⟨s.localIp, ip, IPProtocolUDP, IPv4DontFragment, 4, 128⟩
          ⟨s.serverPort % 65536, peer.Port % 65536⟩ p (genIP_length s _ ip hg)
        rw [← hf] at h1 h2 h3 h4
        refine ⟨h1, ?_, ?_⟩
        · intro i e v u q hfq
          have hv := h3 i e v u q hfq
          rw [hfq] at h2
          simp only [Sent.payload] at h2
          rw [hv, h2, hy]
        · intro i v u q hfq
          have hv := h4 i v u q hfq
          rw [hfq] at h2
          simp only [Sent.payload] at h2
          rw [hv, h2, hy]

/-- In everything a `handler` call writes, an IPv4 header is addressed to the
IP its payload assigns. -/
theorem handler_frame (s : dhcpd) (peer : UDPAddr) (m : Option DHCPv4)
    (xid : Option (List Nat)) (openLive : Option String) (f : Sent)
    (hf : f ∈ (handler s peer m xid openLive).1.sends) :
    (∀ i e v u q, f = Sent.frame i e v u q → v.DstIP = q.YourIPAddr) ∧
    (∀ i v u q, f = Sent.withoutEthernet i v u q → v.DstIP = q.YourIPAddr) := by
  have unicast : ∀ (s1 : dhcpd) (msg : DHCPv4) (t : Nat),
      f ∈ (replyUnicast s1 peer msg xid t openLive).1.sends →
      (∀ i e v u q, f = Sent.frame i e v u q → v.DstIP = q.YourIPAddr) ∧
      (∀ i v u q, f = Sent.withoutEthernet i v u q → v.DstIP = q.YourIPAddr) := by
    intro s1 msg t h
    exact (replyUnicast_frame s1 peer msg xid t openLive f h).2
  cases m with
  | none => simp [handler] at hf
  | some msg =>
    by_cases hop : msg.OpCode = OpcodeBootRequest
    · by_cases hdis : msg.MessageType = MessageTypeDiscover
      · rw [handler_discover s peer msg xid openLive hop hdis] at hf
        exact unicast _ _ _ hf
      · by_cases hrq : msg.MessageType = MessageTypeRequest
        · cases hreq : msg.RequestedIPAddress with
          | none =>
            rw [handler_drop s peer (some msg) xid openLive
              (Or.inr ⟨msg, rfl, Or.inr (Or.inl ⟨hrq, hreq⟩)⟩)] at hf
            simp at hf
          | some requested =>
            cases hg : (genIP s msg.ClientHWAddr).1 with
            | none =>
              rw [handler_request_panic s peer msg xid requested openLive hop hrq hreq hg] at hf
              simp at hf
            | some ip =>
              rw [handler_request s peer msg xid requested ip openLive hop hrq hreq hg] at hf
              split at hf
              · exact unicast _ _ _ hf
              · split at hf
                · simp at hf
                · simp only [List.mem_singleton] at hf
                  subst hf
                  exact ⟨fun i e v u q h => (by cases h), fun i v u q h => (by cases h)⟩
        · rw [handler_drop s peer (some msg) xid openLive
            (Or.inr ⟨msg, rfl, Or.inr (Or.inr ⟨hdis, hrq⟩)⟩)] at hf
          simp at hf
    · rw [handler_drop s peer (some msg) xid openLive (Or.inr ⟨msg, rfl, Or.inl hop⟩)] at hf
      simp at hf

/-- On the example network, with `n + 1` example clients registered, the first
of them, `00:00:00:00:00:00`, still receives `192.168.10.2`. -/
theorem exampleClients_first (n : Nat) :
    (genIP (genIPs exampleServer (exampleClients (n + 1))).2 [0, 0, 0, 0, 0, 0]).1 =
      some [192, 168, 10, 2] := by
  have hc : copyInto 6 [0, 0, 0, 0, 0, 0] = [0, 0, 0, 0, 0, 0] := rfl
  have hcons : ∃ rest, exampleClients (n + 1) = [0, 0, 0, 0, 0, 0] :: rest :=
    ⟨List.map ((fun k => [0, 0, 0, 0, 0, k]) ∘ Nat.succ) (List.range n),
      by simp [exampleClients, List.range_succ_eq_map]⟩
  obtain ⟨rest, hrest⟩ := hcons
  have hm : [0, 0, 0, 0, 0, 0] ∈ (genIPs exampleServer (exampleClients (n + 1))).2.macs.items := by
    rw [exampleClients_registered, hrest]
    exact List.mem_cons_self _ _
  obtain ⟨i, hi, hr⟩ :=
    genIP_fst (genIPs exampleServer (exampleClients (n + 1))).2 [0, 0, 0, 0, 0, 0]
  rw [genIP_of_mem _ _ (by rw [hc]; exact hm), hc, exampleClients_registered, hrest] at hi
  simp [findIndex] at hi
  subst hi
  rw [hr, genIPs_localIp]
  rfl

theorem genIP_congr (s : dhcpd) (h1 h2 : List Nat) (h : copyInto 6 h1 = copyInto 6 h2) :
    genIP s h1 = genIP s h2 := by
  unfold genIP
  simp only [h]

/-- The `YourIPAddr` values the unicast branch writes, the skeleton being
built: the IP of `genIP` when the raw handle opens, nothing otherwise. -/
theorem replyUnicast_yiaddr (s : dhcpd) (peer : UDPAddr) (x : List Nat) (m : DHCPv4) (t : Nat)
    (openLive : Option String) :
    (replyUnicast s peer m (some x) t openLive).1.sends.map (fun r => r.payload.YourIPAddr) =
      match openLive, (genIP s m.ClientHWAddr).1 with
      | none, some ip => [ip]
      | _, _ => [] := by
  cases hg : (genIP s m.ClientHWAddr).1 with
  | none =>
    rw [replyUnicast_panic s peer x m t openLive hg]
    cases openLive <;> rfl
  | some ip =>
    obtain ⟨p, hp, _, hy, _⟩ := createUnicastPayload_ok s x m t ip hg
    obtain ⟨q, hq, hr⟩ := replyUnicast_ok s peer x m t ip openLive hg
    rw [hp] at hq
    cases hq
    rw [hr]
    cases openLive with
    | some e => rfl
    | none =>
      have h2 := (SerializeLayers_dst s.ifname ⟨s.localMac, m.ClientHWAddr, EthernetTypeIPv4⟩
        ⟨s.localIp, ip, IPProtocolUDP, IPv4DontFragment, 4, 128⟩
        ⟨s.serverPort % 65536, peer.Port % 65536⟩ p (genIP_length s _ ip hg)).2.1
      simp only [List.map_cons, List.map_nil, h2, hy]

/-- The unicast branch in the well-formed case: the skeleton is built, `genIP`
assigns `ip`, the raw handle opens, the hardware addresses have six bytes and
`localIp` four.  Exactly one complete frame is written. -/
theorem replyUnicast_complete (s : dhcpd) (peer : UDPAddr) (x : List Nat) (m : DHCPv4) (t : Nat)
    (ip : List Nat) (hg : (genIP s m.ClientHWAddr).1 = some ip)
    (hhw : m.ClientHWAddr.length = 6) (hmac : s.localMac.length = 6)
    (hip : s.localIp.length = 4) :
    ∃ payload, createUnicastPayload s (some x) m t = (.ok payload, (genIP s m.ClientHWAddr).2) ∧
      replyUnicast s peer m (some x) t none =
        (⟨[Sent.frame s.ifname ⟨s.localMac, m.ClientHWAddr, EthernetTypeIPv4⟩
            ⟨s.localIp, ip, IPProtocolUDP, IPv4DontFragment, 4, 128⟩
            ⟨s.serverPort % 65536, peer.Port % 65536⟩ payload], true⟩,
          (genIP s m.ClientHWAddr).2) := by
  obtain ⟨q, hq, hr⟩ := replyUnicast_ok s peer x m t ip none hg
  refine ⟨q, hq, ?_⟩
  rw [hr]
  simp only
  rw [SerializeLayers_frame _ _ _ _ _ hhw hmac hip (genIP_length s _ ip hg)]

/-- What the mask check of `CreateServer` goes by: the 4-byte array
`ipToComparator` makes of the resolved mask.  The mask `[255, 255, 255, 0]`
passes and every other 4-byte mask is rejected, with no listener created. -/
theorem CreateServer_mask_check (ifname : String) (localIp localMask localMac : List Nat)
    (newServer serve : Option String) :
    (ipToComparator localMask ≠ [255, 255, 255, 0] →
      (CreateServer ifname (.ok (localIp, localMask, localMac)) newServer serve).err.isSome ∧
      (CreateServer ifname (.ok (localIp, localMask, localMac)) newServer serve).listenerCreated
        = false ∧
      (CreateServer ifname (.ok (localIp, localMask, localMac)) newServer serve).listenerStarted
        = false) ∧
    (ipToComparator localMask = [255, 255, 255, 0] →
      (CreateServer ifname (.ok (localIp, localMask, localMac)) newServer serve).listenerCreated
        = true) ∧
    ipToComparator [255, 255, 255, 0] = [255, 255, 255, 0] ∧
    (localMask.length = 4 → localMask ≠ [255, 255, 255, 0] →
      ipToComparator localMask ≠ [255, 255, 255, 0]) := by
  have h0 : ipToComparator [255, 255, 255, 0] = [255, 255, 255, 0] := rfl
  refine ⟨?_, ?_, h0, ?_⟩
  · intro h
    simp [CreateServer, h0, h]
  · intro h
    simp only [CreateServer, h0, h]
    cases newServer <;> simp
  · intro h4 hne
    unfold ipToComparator
    rwa [copyInto_of_length 4 _ h4]

/-! ## Claims -/

/-- Claim C1. Sequential first-seen allocation: from an empty registry and a
4-byte `localIp = [a, b, c, d]`, in a run of sequential `genIP` calls over
6-byte hardware addresses of which at most 254 are distinct, the call at every
position `k` returns `[a, b, c, j + 2]`, where `j` is the 0-based position of
its address among the distinct addresses in order of first appearance; and two
calls for different addresses return different IPs. -/
theorem genIP_first_seen_allocation (s : dhcpd) (a b c d : Nat) (hws : List (List Nat))
    (h0 : s.macs = SyncList.empty) (hip : s.localIp = [a, b, c, d])
    (h6 : ∀ hw ∈ hws, hw.length = 6) (hn : (firstSeen hws).length ≤ 254) :
    (∀ (k : Nat) (hw : List Nat), hws[k]? = some hw →
      ∃ j, findIndex (firstSeen hws) hw = some j ∧
        (genIPs s hws).1[k]? = some (some [a, b, c, j + 2])) ∧
    (∀ (k1 k2 : Nat) (hw1 hw2 : List Nat), hws[k1]? = some hw1 → hws[k2]? = some hw2 → hw1 ≠ hw2 →
      (genIPs s hws).1[k1]? ≠ (genIPs s hws).1[k2]?) := by
  have hmap : hws.map (copyInto 6) = hws := by
    conv_rhs => rw [← List.map_id hws]
    apply List.map_congr_left
    intro hw hmem
    simpa using copyInto_of_length 6 hw (h6 hw hmem)
  have hfinal : (genIPs s hws).2.macs.items = firstSeen hws := by
    rw [genIPs_macs, hmap, h0]
    simp [SyncList.empty]
  have key : ∀ (k : Nat) (hw : List Nat), hws[k]? = some hw →
      ∃ j, findIndex (firstSeen hws) hw = some j ∧
        (genIPs s hws).1[k]? = some (some [a, b, c, j + 2]) := by
    intro k hw hk
    have hmem : hw ∈ hws := List.getElem?_mem hk
    obtain ⟨j, hj⟩ := findIndex_of_mem _ _ ((mem_firstSeen hws hw).2 hmem)
    have hlt := (findIndex_lt _ _ _ hj).1
    refine ⟨j, hj, ?_⟩
    rw [genIPs_fst, List.getElem?_map, hk, hfinal]
    have hmod : (j + 2) % 256 = j + 2 := Nat.mod_eq_of_lt (by omega)
    simp [copyInto_of_length 6 hw (h6 hw hmem), hj, hip, mkIP, hmod]
  refine ⟨key, ?_⟩
  intro k1 k2 hw1 hw2 h1 h2 hne heq
  obtain ⟨j1, hj1, hr1⟩ := key k1 hw1 h1
  obtain ⟨j2, hj2, hr2⟩ := key k2 hw2 h2
  rw [hr1, hr2] at heq
  have hj : j1 = j2 := by simpa using heq
  subst hj
  have e1 := findIndex_some _ _ _ hj1
  have e2 := findIndex_some _ _ _ hj2
  rw [e1] at e2
  exact hne (Option.some.inj e2)

/-- Witness of C1 on the example network: clients A, B, A again. -/
theorem genIP_first_seen_allocation_witness :
    (∀ (k : Nat) (hw : List Nat), [macA, macB, macA][k]? = some hw →
      ∃ j, findIndex (firstSeen [macA, macB, macA]) hw = some j ∧
        (genIPs exampleServer [macA, macB, macA]).1[k]? = some (some [192, 168, 10, j + 2])) ∧
    (∀ (k1 k2 : Nat) (hw1 hw2 : List Nat), [macA, macB, macA][k1]? = some hw1 →
      [macA, macB, macA][k2]? = some hw2 → hw1 ≠ hw2 →
      (genIPs exampleServer [macA, macB, macA]).1[k1]? ≠
        (genIPs exampleServer [macA, macB, macA]).1[k2]?) :=
  genIP_first_seen_allocation exampleServer 192 168 10 1 [macA, macB, macA] rfl rfl
    (by decide) (by decide)

/-- Claim C2. Idempotence of assignment, with no bound on the number of
clients: in every state (so in every state reachable from the empty registry),
for every hardware address, a later `genIP` call returns the IP the first call
returned, whatever calls were made in between; and a later DISCOVER from a
client is offered the `YourIPAddr` the first DISCOVER from it was offered
(both reply skeletons being built): every offer written by the later call
carries the `YourIPAddr` of every offer written by the first, and when the raw
handle opens in both calls, or in neither, the two calls offer the same. -/
theorem genIP_idempotent (s : dhcpd) (calls : List Call) :
    (∀ hw : List Nat, (genIP (runCalls (genIP s hw).2 calls) hw).1 = (genIP s hw).1) ∧
    (∀ (peer1 peer2 : UDPAddr) (m1 m2 skel1 skel2 : DHCPv4) (xid1 xid2 : Option (List Nat))
      (open1 open2 : Option String),
      m1.OpCode = OpcodeBootRequest → m1.MessageType = MessageTypeDiscover →
      m2.OpCode = OpcodeBootRequest → m2.MessageType = MessageTypeDiscover →
      m2.ClientHWAddr = m1.ClientHWAddr →
      NewReplyFromRequest xid1 m1 = .ok skel1 → NewReplyFromRequest xid2 m2 = .ok skel2 →
      (open2.isNone = open1.isNone →
        (handler (runCalls (handler s peer1 (some m1) xid1 open1).2 calls) peer2 (some m2) xid2
            open2).1.sends.map (fun r => r.payload.YourIPAddr) =
          (handler s peer1 (some m1) xid1 open1).1.sends.map (fun r => r.payload.YourIPAddr)) ∧
      (∀ y1 ∈ (handler s peer1 (some m1) xid1 open1).1.sends.map
          (fun r => r.payload.YourIPAddr),
        ∀ y2 ∈ (handler (runCalls (handler s peer1 (some m1) xid1 open1).2 calls) peer2
            (some m2) xid2 open2).1.sends.map (fun r => r.payload.YourIPAddr),
        y2 = y1)) := by
  have later : ∀ hw : List Nat,
      genIP (runCalls (genIP s hw).2 calls) hw =
        ((genIP s hw).1, runCalls (genIP s hw).2 calls) := by
    intro hw
    rw [genIP_stable (genIP s hw).2 _ hw (genIP_mem_after s hw) (runCalls_extends _ calls),
      genIP_twice]
  refine ⟨fun hw => by rw [later hw], ?_⟩
  intro peer1 peer2 m1 m2 skel1 skel2 xid1 xid2 open1 open2 hop1 hmt1 hop2 hmt2 hhw hs1 hs2
  obtain ⟨x1, rfl⟩ := newReply_some _ _ _ hs1
  obtain ⟨x2, rfl⟩ := newReply_some _ _ _ hs2
  rw [handler_discover _ _ _ _ _ hop2 hmt2, handler_discover _ _ _ _ _ hop1 hmt1]
  have hst := replyUnicast_snd s peer1 (some x1) m1 MessageTypeOffer open1
  simp only at hst
  rw [hst, replyUnicast_yiaddr, replyUnicast_yiaddr, hhw, later]
  cases (genIP s m1.ClientHWAddr).1 <;> cases open1 <;> cases open2 <;> simp

/-- Witness of C2 on the example network: client A sends DISCOVER, client B is
registered, client A sends DISCOVER again; both offers are `192.168.10.2`. -/
theorem genIP_idempotent_witness :
    (handler (runCalls (handler exampleServer examplePeer (some (exampleDiscover macA))
        (some [7]) none).2 [Call.genIP macB]) examplePeer (some (exampleDiscover macA))
        (some [8]) none).1.sends.map (fun r => r.payload.YourIPAddr) =
      (handler exampleServer examplePeer (some (exampleDiscover macA)) (some [7])
        none).1.sends.map (fun r => r.payload.YourIPAddr) ∧
    (handler exampleServer examplePeer (some (exampleDiscover macA)) (some [7])
        none).1.sends.map (fun r => r.payload.YourIPAddr) = [[192, 168, 10, 2]] :=
  ⟨((genIP_idempotent exampleServer [Call.genIP macB]).2 examplePeer examplePeer
      (exampleDiscover macA) (exampleDiscover macA) _ _ (some [7]) (some [8]) none none
      rfl rfl rfl rfl rfl rfl rfl).1 rfl, by decide⟩

/-- Counterexample to C3 as stated: on the example network client A requests
`192.168.10.2`, the address `genIP` assigns to it, and the reply skeleton is
built, but the raw handle does not open; `sendUnicast` returns the error before
any write and `handler` sends no reply at all. -/
theorem handler_request_ack_lost_without_handle :
    (exampleRequest macA [192, 168, 10, 2]).OpCode = OpcodeBootRequest ∧
    (exampleRequest macA [192, 168, 10, 2]).MessageType = MessageTypeRequest ∧
    (exampleRequest macA [192, 168, 10, 2]).RequestedIPAddress =
      (genIP exampleServer macA).1 ∧
    (∃ skel, NewReplyFromRequest (some [7]) (exampleRequest macA [192, 168, 10, 2]) =
      .ok skel) ∧
    (handler exampleServer examplePeer (some (exampleRequest macA [192, 168, 10, 2]))
      (some [7]) (some "eth0: no such device")).1 = ⟨[], true⟩ :=
  ⟨rfl, rfl, rfl, ⟨_, rfl⟩, by decide⟩

/-- Claim C3, amended. ACK on match: for a boot request of type REQUEST, from a
6-byte client hardware address, whose requested IP is the IP `genIP` assigns to
that address, on a server with a 6-byte local hardware address and a 4-byte
local IP, `handler` (the reply skeleton being built and the raw handle
opening) writes exactly one reply, as a complete raw frame to the client and not
through the socket; its message type is ACK, its `YourIPAddr` is the allocated
(and requested) IP and its server-identifier option holds `localIp`. -/
theorem handler_request_ack (s : dhcpd) (peer : UDPAddr) (m skel : DHCPv4)
    (xid : Option (List Nat)) (ip : List Nat)
    (hop : m.OpCode = OpcodeBootRequest) (hmt : m.MessageType = MessageTypeRequest)
    (hreq : m.RequestedIPAddress = some ip) (hg : (genIP s m.ClientHWAddr).1 = some ip)
    (hsk : NewReplyFromRequest xid m = .ok skel)
    (hhw : m.ClientHWAddr.length = 6) (hmac : s.localMac.length = 6)
    (hip : s.localIp.length = 4) :
    ∃ payload,
      (handler s peer (some m) xid none).1 =
        ⟨[Sent.frame s.ifname ⟨s.localMac, m.ClientHWAddr, EthernetTypeIPv4⟩
            ⟨s.localIp, ip, IPProtocolUDP, IPv4DontFragment, 4, 128⟩
            ⟨s.serverPort % 65536, peer.Port % 65536⟩ payload], true⟩ ∧
      payload.MessageType = MessageTypeAck ∧
      payload.YourIPAddr = ip ∧ some payload.YourIPAddr = m.RequestedIPAddress ∧
      optGet payload.Options OptionServerIdentifier = some s.localIp := by
  obtain ⟨x, rfl⟩ := newReply_some _ _ _ hsk
  have hg1 : (genIP (genIP s m.ClientHWAddr).2 m.ClientHWAddr).1 = some ip := by
    rw [genIP_twice, hg]
  obtain ⟨p, hp, hty, hy, _, hsid, _⟩ :=
    createUnicastPayload_ok _ x m MessageTypeAck ip hg1
  obtain ⟨q, hq, hr⟩ := replyUnicast_complete _ peer x m MessageTypeAck ip hg1 hhw
    (by rw [genIP_localMac]; exact hmac) (by rw [genIP_localIp]; exact hip)
  rw [hp] at hq
  cases hq
  rw [genIP_localIp, ipBytes_of_length _ hip] at hsid
  refine ⟨p, ?_, hty, hy, by rw [hy, hreq], hsid⟩
  rw [handler_request s peer m _ ip ip none hop hmt hreq hg, if_pos rfl, hr, genIP_ifname,
    genIP_localMac, genIP_localIp, genIP_serverPort]

/-- Witness of C3 (amended) on the example network: client A requests
`192.168.10.2`, the address allocated to it, and the raw handle opens. -/
theorem handler_request_ack_witness :
    ∃ payload,
      (handler exampleServer examplePeer (some (exampleRequest macA [192, 168, 10, 2]))
          (some [7]) none).1 =
        ⟨[Sent.frame "eth0" ⟨[2, 0, 0, 0, 0, 1], macA, EthernetTypeIPv4⟩
            ⟨[192, 168, 10, 1], [192, 168, 10, 2], IPProtocolUDP, IPv4DontFragment, 4, 128⟩
            ⟨67, 68⟩ payload], true⟩ ∧
      payload.MessageType = MessageTypeAck ∧
      payload.YourIPAddr = [192, 168, 10, 2] ∧
      some payload.YourIPAddr = (exampleRequest macA [192, 168, 10, 2]).RequestedIPAddress ∧
      optGet payload.Options OptionServerIdentifier = some [192, 168, 10, 1] :=
  handler_request_ack exampleServer examplePeer (exampleRequest macA [192, 168, 10, 2]) _
    (some [7]) [192, 168, 10, 2] rfl rfl rfl rfl rfl rfl rfl rfl

/-- Claim C4. NAK on mismatch: for a boot request of type REQUEST whose
requested IP differs from the IP `genIP` assigns to its client hardware
address, `handler` (the reply skeleton being built) writes exactly one reply,
through the listener's socket to the source address of the packet and not to
the raw handle (whether or not that would open); its message type is NAK, its message option is the
non-empty text "requested address not available", its broadcast flag is set
and its `YourIPAddr` is still the zero address `0.0.0.0`. -/
theorem handler_request_nak (s : dhcpd) (peer : UDPAddr) (m skel : DHCPv4)
    (xid : Option (List Nat)) (openLive : Option String) (requested ip : List Nat)
    (hop : m.OpCode = OpcodeBootRequest) (hmt : m.MessageType = MessageTypeRequest)
    (hreq : m.RequestedIPAddress = some requested)
    (hg : (genIP s m.ClientHWAddr).1 = some ip) (hne : requested ≠ ip)
    (hsk : NewReplyFromRequest xid m = .ok skel) :
    ∃ payload,
      (handler s peer (some m) xid openLive).1 = ⟨[Sent.socket peer payload], true⟩ ∧
      payload.MessageType = MessageTypeNak ∧
      optGet payload.Options OptionMessage =
        some (stringBytes "requested address not available") ∧
      stringBytes "requested address not available" ≠ [] ∧
      payload.IsBroadcast = true ∧
      payload.YourIPAddr = IPv4zero ∧ To4 payload.YourIPAddr = some [0, 0, 0, 0] := by
  obtain ⟨x, rfl⟩ := newReply_some _ _ _ hsk
  obtain ⟨p, hp, hty, hy, _, hmsg, _, hb⟩ :=
    createBroadcastPayload_ok (genIP s m.ClientHWAddr).2 x m MessageTypeNak
  refine ⟨p, ?_, hty, hmsg, by decide, hb, hy, by rw [hy]; decide⟩
  rw [handler_request s peer m _ requested ip openLive hop hmt hreq hg, if_neg hne, hp]

/-- Witness of C4 on the example network: client A requests `192.168.10.9`,
which is not the address allocated to it. -/
theorem handler_request_nak_witness :
    ∃ payload,
      (handler exampleServer examplePeer (some (exampleRequest macA [192, 168, 10, 9]))
          (some [7]) none).1 = ⟨[Sent.socket examplePeer payload], true⟩ ∧
      payload.MessageType = MessageTypeNak ∧
      optGet payload.Options OptionMessage =
        some (stringBytes "requested address not available") ∧
      stringBytes "requested address not available" ≠ [] ∧
      payload.IsBroadcast = true ∧
      payload.YourIPAddr = IPv4zero ∧ To4 payload.YourIPAddr = some [0, 0, 0, 0] :=
  handler_request_nak exampleServer examplePeer (exampleRequest macA [192, 168, 10, 9]) _
    (some [7]) none [192, 168, 10, 9] [192, 168, 10, 2] rfl rfl rfl rfl (by decide) rfl

/-- Claim C5. Drop cases send nothing: when the message is nil, or its opcode
is not boot-request, or it is a REQUEST without a (well-formed) requested-IP
option, or its type is neither DISCOVER nor REQUEST, `handler` hands over
nothing, neither a raw frame nor a socket write, and returns normally. -/
theorem handler_drop_sends_nothing (s : dhcpd) (peer : UDPAddr) (m : Option DHCPv4)
    (xid : Option (List Nat)) (openLive : Option String)
    (h : m = none ∨ ∃ msg, m = some msg ∧
      (msg.OpCode ≠ OpcodeBootRequest ∨
        (msg.MessageType = MessageTypeRequest ∧ msg.RequestedIPAddress = none) ∨
        (msg.MessageType ≠ MessageTypeDiscover ∧ msg.MessageType ≠ MessageTypeRequest))) :
    (handler s peer m xid openLive).1 = ⟨[], true⟩ := by
  rcases h with rfl | ⟨msg, rfl, h⟩
  · rfl
  · unfold handler
    by_cases hop : msg.OpCode = OpcodeBootRequest
    · rcases h with h | ⟨hmt, hreq⟩ | ⟨h1, h2⟩
      · exact absurd hop h
      · have hd : MessageTypeRequest ≠ MessageTypeDiscover := by decide
        simp [hop, hmt, hreq, hd]
      · simp [hop, h1, h2]
    · simp [hop]

/-- Witness of C5 on the example network: a REQUEST from client A that carries
no requested IP. -/
theorem handler_drop_sends_nothing_witness :
    (handler exampleServer examplePeer
      (some (exampleMessage macA [(OptionDHCPMessageType, [MessageTypeRequest])]))
      (some [7]) none).1 = ⟨[], true⟩ :=
  handler_drop_sends_nothing exampleServer examplePeer _ (some [7]) none
    (Or.inr ⟨_, rfl, Or.inr (Or.inl ⟨rfl, rfl⟩)⟩)

/-- Counterexample to C6 as stated: on the example network, after 254 clients
have registered one after another, the next client is handed `192.168.10.0`,
the network address. -/
theorem genIP_hands_out_network_address :
    Reachable (genIPs exampleServer (exampleClients 254)).2 ∧
    (genIP (genIPs exampleServer (exampleClients 254)).2 [0, 0, 0, 0, 1, 0]).1 =
      some [192, 168, 10, 0] :=
  ⟨reachable_genIPs _ _ (Reachable.start _ rfl), exampleClients_next 254⟩

/-- Claim C6, amended. In every state (so in every state reachable from the
empty registry), for a hardware address whose registry index (the one it has
after the call) is at most 253, the last octet of the IP `genIP` returns is
that index plus 2, and so neither 0 nor 1. -/
theorem genIP_last_octet (s : dhcpd) (hw ip : List Nat) (i : Nat)
    (hg : (genIP s hw).1 = some ip)
    (hi : (genIP s hw).2.macs.Find (copyInto 6 hw) = some i) (hle : i ≤ 253) :
    ip.length = 4 ∧ ip[3]? = some (i + 2) ∧ ip[3]? ≠ some 0 ∧ ip[3]? ≠ some 1 := by
  obtain ⟨j, hj, hres⟩ := genIP_fst s hw
  unfold SyncList.Find at hi
  rw [hi] at hj
  cases hj
  rw [hres] at hg
  have hmod : (i + 2) % 256 = i + 2 := Nat.mod_eq_of_lt (by omega)
  unfold mkIP at hg
  split at hg
  · cases hg
    simp [hmod]
  · cases hg

/-- Witness of C6 (amended) on the example network: the first client. -/
theorem genIP_last_octet_witness :
    ([192, 168, 10, 2] : List Nat).length = 4 ∧
    ([192, 168, 10, 2] : List Nat)[3]? = some (0 + 2) ∧
    ([192, 168, 10, 2] : List Nat)[3]? ≠ some 0 ∧
    ([192, 168, 10, 2] : List Nat)[3]? ≠ some 1 :=
  genIP_last_octet exampleServer macA [192, 168, 10, 2] 0 rfl rfl (by decide)

/-- Claim C7, evaluated on two interleavings from the empty registry, every
registry operation taken as atomic.  Two concurrent first-time `genIP` calls
for clients A and B that alternate their `Find`, `Size` and `Add` steps both
obtain index 0 (last octet 2); two such calls for client A alone leave two
registry entries for it. -/
theorem genIP_interleaved_race :
    interleave SyncList.empty [Task.start macA, Task.start macB] [0, 1, 0, 1, 0, 1] =
      (⟨[macA, macB]⟩, [⟨macA, .ret 2⟩, ⟨macB, .ret 2⟩]) ∧
    interleave SyncList.empty [Task.start macA, Task.start macA] [0, 1, 0, 1, 0, 1] =
      (⟨[macA, macA]⟩, [⟨macA, .ret 2⟩, ⟨macA, .ret 2⟩]) := by
  decide

/-- Claim C8. Registry invariant: in every state reachable from the empty
registry by sequential `handler` and `genIP` calls the registry holds no
hardware address twice; every further call leaves the registry as a leading
part of the new one, with at most one entry appended at the end; and so an
index, once assigned to an address, never changes. -/
theorem registry_invariant (s : dhcpd) (c : Call) (hr : Reachable s) :
    s.macs.items.Nodup ∧
    (∃ t, (c.run s).macs.items = s.macs.items ++ t ∧ t.length ≤ 1) ∧
    (∀ (mac : List Nat) (i : Nat), s.macs.Find mac = some i →
      (c.run s).macs.Find mac = some i) := by
  refine ⟨reachable_nodup s hr, run_append s c, ?_⟩
  intro mac i hi
  obtain ⟨t, ht, _⟩ := run_append s c
  unfold SyncList.Find at hi ⊢
  rw [ht, findIndex_append_of_mem _ _ _ (findIndex_lt _ _ _ hi).2, hi]

/-- Witness of C8 on the example network: the state after a DISCOVER from
client A, followed by a `genIP` call for client B. -/
theorem registry_invariant_witness :
    (handler exampleServer examplePeer (some (exampleDiscover macA)) (some [7]) none).2.macs.items.Nodup ∧
    (∃ t, ((Call.genIP macB).run
        (handler exampleServer examplePeer (some (exampleDiscover macA)) (some [7]) none).2).macs.items =
      (handler exampleServer examplePeer (some (exampleDiscover macA)) (some [7]) none).2.macs.items ++ t ∧
      t.length ≤ 1) ∧
    (∀ (mac : List Nat) (i : Nat),
      (handler exampleServer examplePeer (some (exampleDiscover macA)) (some [7]) none).2.macs.Find mac =
        some i →
      ((Call.genIP macB).run
        (handler exampleServer examplePeer (some (exampleDiscover macA)) (some [7]) none).2).macs.Find mac =
        some i) :=
  registry_invariant _ (Call.genIP macB)
    (Reachable.step exampleServer
      (Call.handler examplePeer (some (exampleDiscover macA)) (some [7]) none)
      (Reachable.start exampleServer rfl))

/-- Claim C9, evaluated where the code breaks it: the 16-byte mask
`ffff:ff00::` and the 3-byte mask `255.255.255` are not `255.255.255.0`, yet
with either of them `CreateServer` returns no mask error and creates and
starts the listener. -/
theorem CreateServer_accepts_other_masks :
    ([255, 255, 255, 0, 0, 0, 0, 0, 0, 0, 0, 0, 0, 0, 0, 0] : List Nat) ≠ [255, 255, 255, 0] ∧
    (CreateServer "eth0"
      (.ok ([192, 168, 10, 1], [255, 255, 255, 0, 0, 0, 0, 0, 0, 0, 0, 0, 0, 0, 0, 0],
        [2, 0, 0, 0, 0, 1])) none (some "closed")).listenerStarted = true ∧
    ([255, 255, 255] : List Nat) ≠ [255, 255, 255, 0] ∧
    (CreateServer "eth0" (.ok ([192, 168, 10, 1], [255, 255, 255], [2, 0, 0, 0, 0, 1]))
      none (some "closed")).listenerStarted = true := by
  decide

/-- Counterexample to C10 as stated: on the example network the reply skeleton
for a DISCOVER from client A is built, but the raw handle does not open, and
`handler` sends no reply at all.  (And for a DISCOVER from the 7-byte hardware
address `01:02:03:04:05:06:07`, with the handle open, what is written is not
a complete frame: the Ethernet header is missing.) -/
theorem handler_discover_offer_lost_without_handle :
    (exampleDiscover macA).OpCode = OpcodeBootRequest ∧
    (exampleDiscover macA).MessageType = MessageTypeDiscover ∧
    (∃ skel, NewReplyFromRequest (some [7]) (exampleDiscover macA) = .ok skel) ∧
    (handler exampleServer examplePeer (some (exampleDiscover macA)) (some [7])
      (some "eth0: no such device")).1 = ⟨[], true⟩ ∧
    (handler exampleServer examplePeer (some (exampleDiscover [1, 2, 3, 4, 5, 6, 7]))
      (some [7]) none).1.sends.map Sent.isFrame = [false] :=
  ⟨rfl, rfl, ⟨_, rfl⟩, by decide, by decide⟩

/-- Claim C10, amended. OFFER on DISCOVER: for a boot request of type DISCOVER
from a 6-byte client hardware address, on a server with a 6-byte local
hardware address and a 4-byte local IP, `handler` (the reply skeleton being
built and the raw handle opening) writes exactly one reply, as a complete raw
frame to the client and not through the socket; its message type is OFFER and
its `YourIPAddr` is the IP `genIP` assigns to the client hardware address of
the message. -/
theorem handler_discover_offer (s : dhcpd) (peer : UDPAddr) (m skel : DHCPv4)
    (xid : Option (List Nat)) (ip : List Nat)
    (hop : m.OpCode = OpcodeBootRequest) (hmt : m.MessageType = MessageTypeDiscover)
    (hg : (genIP s m.ClientHWAddr).1 = some ip)
    (hsk : NewReplyFromRequest xid m = .ok skel)
    (hhw : m.ClientHWAddr.length = 6) (hmac : s.localMac.length = 6)
    (hip : s.localIp.length = 4) :
    ∃ payload,
      (handler s peer (some m) xid none).1 =
        ⟨[Sent.frame s.ifname ⟨s.localMac, m.ClientHWAddr, EthernetTypeIPv4⟩
            ⟨s.localIp, ip, IPProtocolUDP, IPv4DontFragment, 4, 128⟩
            ⟨s.serverPort % 65536, peer.Port % 65536⟩ payload], true⟩ ∧
      payload.MessageType = MessageTypeOffer ∧
      payload.YourIPAddr = ip := by
  obtain ⟨x, rfl⟩ := newReply_some _ _ _ hsk
  obtain ⟨p, hp, hty, hy, _⟩ := createUnicastPayload_ok s x m MessageTypeOffer ip hg
  obtain ⟨q, hq, hr⟩ := replyUnicast_complete s peer x m MessageTypeOffer ip hg hhw hmac hip
  rw [hp] at hq
  cases hq
  exact ⟨p, by rw [handler_discover _ _ _ _ _ hop hmt, hr], hty, hy⟩

/-- Witness of C10 (amended) on the example network: the first DISCOVER, from
client A, is offered `192.168.10.2`. -/
theorem handler_discover_offer_witness :
    ∃ payload,
      (handler exampleServer examplePeer (some (exampleDiscover macA)) (some [7]) none).1 =
        ⟨[Sent.frame "eth0" ⟨[2, 0, 0, 0, 0, 1], macA, EthernetTypeIPv4⟩
            ⟨[192, 168, 10, 1], [192, 168, 10, 2], IPProtocolUDP, IPv4DontFragment, 4, 128⟩
            ⟨67, 68⟩ payload], true⟩ ∧
      payload.MessageType = MessageTypeOffer ∧
      payload.YourIPAddr = [192, 168, 10, 2] :=
  handler_discover_offer exampleServer examplePeer (exampleDiscover macA) _ (some [7])
    [192, 168, 10, 2] rfl rfl rfl rfl rfl rfl rfl

/-- Counterexample to C11 as stated: on the example network a boot request of
type REQUEST from the unregistered client A that carries no requested IP is
dropped before `genIP` is called, and client A is still not in the registry
afterwards. -/
theorem handler_request_without_ip_registers_nothing :
    (exampleMessage macA [(OptionDHCPMessageType, [MessageTypeRequest])]).OpCode =
      OpcodeBootRequest ∧
    (exampleMessage macA [(OptionDHCPMessageType, [MessageTypeRequest])]).MessageType =
      MessageTypeRequest ∧
    macA ∉ exampleServer.macs.items ∧
    macA ∉ (handler exampleServer examplePeer
      (some (exampleMessage macA [(OptionDHCPMessageType, [MessageTypeRequest])]))
      (some [7]) none).2.macs.items := by
  decide

/-- Claim C11, amended. Registry entry lifecycle: for a boot request that is a
DISCOVER whose reply skeleton is built, or a REQUEST that carries a requested
IP, and whose client hardware address (as the 6-byte registry key) is not yet
in the registry, the registry after `handler` is the registry before with that
address appended, at the next free index, whatever the answer. -/
theorem handler_registers_client (s : dhcpd) (peer : UDPAddr) (m : DHCPv4)
    (xid : Option (List Nat)) (openLive : Option String)
    (hop : m.OpCode = OpcodeBootRequest)
    (hty : (m.MessageType = MessageTypeDiscover ∧ ∃ skel, NewReplyFromRequest xid m = .ok skel) ∨
      (m.MessageType = MessageTypeRequest ∧ ∃ requested, m.RequestedIPAddress = some requested))
    (hnew : copyInto 6 m.ClientHWAddr ∉ s.macs.items) :
    (handler s peer (some m) xid openLive).2.macs.items = s.macs.items ++ [copyInto 6 m.ClientHWAddr] ∧
    (handler s peer (some m) xid openLive).2.macs.Find (copyInto 6 m.ClientHWAddr) = some s.macs.Size := by
  have hst : (handler s peer (some m) xid openLive).2 = (genIP s m.ClientHWAddr).2 := by
    rcases hty with ⟨hmt, skel, hsk⟩ | ⟨hmt, requested, hreq⟩
    · obtain ⟨x, rfl⟩ := newReply_some _ _ _ hsk
      rw [handler_discover s peer m _ openLive hop hmt, replyUnicast_snd]
    · exact handler_request_snd s peer m xid requested openLive hop hmt hreq
  have hitems : (handler s peer (some m) xid openLive).2.macs.items =
      s.macs.items ++ [copyInto 6 m.ClientHWAddr] := by
    rw [hst, genIP_macs, if_neg hnew]
  refine ⟨hitems, ?_⟩
  unfold SyncList.Find SyncList.Size
  rw [hitems, findIndex_append_not_mem _ _ _ hnew]

/-- Witness of C11 (amended) on the example network: a REQUEST from the
unregistered client A for `192.168.10.9`, answered with a NAK, registers it. -/
theorem handler_registers_client_witness :
    (handler exampleServer examplePeer (some (exampleRequest macA [192, 168, 10, 9]))
        (some [7]) none).2.macs.items = exampleServer.macs.items ++ [copyInto 6 macA] ∧
    (handler exampleServer examplePeer (some (exampleRequest macA [192, 168, 10, 9]))
        (some [7]) none).2.macs.Find (copyInto 6 macA) = some exampleServer.macs.Size :=
  handler_registers_client exampleServer examplePeer (exampleRequest macA [192, 168, 10, 9])
    (some [7]) none rfl (Or.inr ⟨rfl, _, rfl⟩) (by decide)

/-- Claim C12. Frame headers: `createUnicastLayer` returns an Ethernet header
from `localMac` to the given hardware address with type IPv4; an IPv4 header
with version 4, from `localIp` to the given IP, protocol UDP, the
don't-fragment flag and TTL 128; and a UDP header from `serverPort` (as a
16-bit port, so `serverPort` itself when it is one, such as the 67 every
server is created with) to the given port.  `sendUnicast` calls it with the
IP `genIP` allocates to the client, the client hardware address of the request
and the port of the source address of the request, and, when the raw handle
opens, writes what serialising these layers around the payload gives: with
6-byte hardware addresses and a 4-byte `localIp`, the complete frame. -/
theorem createUnicastLayer_headers (s : dhcpd) (dstIP dstMAC : List Nat) (dstPort : Nat) :
    createUnicastLayer s dstIP dstMAC dstPort =
      (⟨s.localMac, dstMAC, EthernetTypeIPv4⟩,
        ⟨s.localIp, dstIP, IPProtocolUDP, IPv4DontFragment, 4, 128⟩,
        ⟨s.serverPort % 65536, dstPort⟩) ∧
    (s.serverPort < 65536 →
      (createUnicastLayer s dstIP dstMAC dstPort).2.2.SrcPort = s.serverPort) ∧
    (∀ (ifname : String) (iface : Except String (List Nat × List Nat × List Nat))
      (newServer serve : Option String) (s0 : dhcpd),
      (CreateServer ifname iface newServer serve).server = some s0 → s0.serverPort = 67) ∧
    (∀ (peer : UDPAddr) (m payload : DHCPv4) (ip : List Nat) (openLive : Option String),
      (genIP s m.ClientHWAddr).1 = some ip →
      (sendUnicast s peer m payload openLive).1 =
          (match openLive with
            | some e => Res.err e
            | none =>
              Res.ok (SerializeLayers s.ifname
                (createUnicastLayer s ip m.ClientHWAddr (peer.Port % 65536)).1
                (createUnicastLayer s ip m.ClientHWAddr (peer.Port % 65536)).2.1
                (createUnicastLayer s ip m.ClientHWAddr (peer.Port % 65536)).2.2 payload)) ∧
        (m.ClientHWAddr.length = 6 → s.localMac.length = 6 → s.localIp.length = 4 →
          (sendUnicast s peer m payload none).1 =
            Res.ok (Sent.frame s.ifname
              (createUnicastLayer s ip m.ClientHWAddr (peer.Port % 65536)).1
              (createUnicastLayer s ip m.ClientHWAddr (peer.Port % 65536)).2.1
              (createUnicastLayer s ip m.ClientHWAddr (peer.Port % 65536)).2.2 payload)) ∧
        (peer.Port < 65536 →
          (createUnicastLayer s ip m.ClientHWAddr (peer.Port % 65536)).2.2.DstPort =
            peer.Port)) := by
  refine ⟨rfl, ?_, ?_, ?_⟩
  · intro h
    exact Nat.mod_eq_of_lt h
  · intro ifname iface newServer serve s0 h
    rcases iface with e | ⟨lip, lmask, lmac⟩
    · simp [CreateServer] at h
    · by_cases hm : ipToComparator lmask = ipToComparator [255, 255, 255, 0]
      · cases newServer <;>
          (simp only [CreateServer, hm, ne_eq, not_true_eq_false, if_false] at h
           cases h
           rfl)
      · simp [CreateServer, hm] at h
  · intro peer m payload ip openLive hg
    have h2 : genIP s m.ClientHWAddr = (some ip, (genIP s m.ClientHWAddr).2) := Prod.ext hg rfl
    have hsend : ∀ o : Option String, (sendUnicast s peer m payload o).1 =
        (match o with
          | some e => Res.err e
          | none =>
            Res.ok (SerializeLayers s.ifname
              (createUnicastLayer s ip m.ClientHWAddr (peer.Port % 65536)).1
              (createUnicastLayer s ip m.ClientHWAddr (peer.Port % 65536)).2.1
              (createUnicastLayer s ip m.ClientHWAddr (peer.Port % 65536)).2.2 payload)) := by
      intro o
      unfold sendUnicast
      rw [h2]
      simp only [createUnicastLayer]
      cases o with
      | some e => rfl
      | none =>
        simp only
        rw [genIP_config]
    refine ⟨hsend openLive, ?_, fun h => Nat.mod_eq_of_lt h⟩
    intro hhw hmac hip
    rw [hsend none]
    simp only [createUnicastLayer]
    rw [SerializeLayers_frame _ _ _ _ _ hhw hmac hip (genIP_length s _ ip hg)]

/-- Witness of C12 on the example network: the frame `sendUnicast` writes for
client A goes from port 67 to port 68 of `192.168.10.2`. -/
theorem createUnicastLayer_headers_witness :
    (sendUnicast exampleServer examplePeer (exampleDiscover macA) (exampleDiscover macA)
        none).1 =
      Res.ok (Sent.frame "eth0"
        (createUnicastLayer exampleServer [192, 168, 10, 2] macA (68 % 65536)).1
        (createUnicastLayer exampleServer [192, 168, 10, 2] macA (68 % 65536)).2.1
        (createUnicastLayer exampleServer [192, 168, 10, 2] macA (68 % 65536)).2.2
        (exampleDiscover macA)) ∧
    (createUnicastLayer exampleServer [192, 168, 10, 2] macA (68 % 65536)).2.2 =
      ⟨67, 68⟩ :=
  ⟨((createUnicastLayer_headers exampleServer [192, 168, 10, 2] macA 68).2.2.2 examplePeer
      (exampleDiscover macA) (exampleDiscover macA) [192, 168, 10, 2] none rfl).2.1
      rfl rfl rfl, rfl⟩

/-- Claim C13. Unicast reply contents: when the reply skeleton is built (and
`genIP` assigns an IP), `createUnicastPayload` returns a reply with the given
message type, server identifier `localIp`, lease time 21600 seconds, subnet
mask `localMask` (as the option encodes a mask: its first four bytes, so
`localMask` itself when it has at most four bytes), router `localIp`, `YourIPAddr` the IP of `genIP`,
`ServerIPAddr = localIp`, the broadcast flag cleared and no client-identifier
option; when building the skeleton fails it returns that error, no reply, and
the state untouched. -/
theorem createUnicastPayload_contents (s : dhcpd) (xid : Option (List Nat)) (m : DHCPv4)
    (t : Nat) :
    (∀ (skel : DHCPv4) (ip : List Nat), NewReplyFromRequest xid m = .ok skel →
      (genIP s m.ClientHWAddr).1 = some ip →
      ∃ reply, createUnicastPayload s xid m t = (.ok reply, (genIP s m.ClientHWAddr).2) ∧
        reply.MessageType = t ∧
        optGet reply.Options OptionServerIdentifier = some (ipBytes s.localIp) ∧
        optGet reply.Options OptionIPAddressLeaseTime = some (durationBytes 21600) ∧
        durationBytes 21600 = [0, 0, 84, 96] ∧
        optGet reply.Options OptionSubnetMask = some (maskBytes s.localMask) ∧
        (s.localMask.length ≤ 4 → maskBytes s.localMask = s.localMask) ∧
        optGet reply.Options OptionRouter = some (ipBytes s.localIp) ∧
        (s.localIp.length = 4 → ipBytes s.localIp = s.localIp) ∧
        reply.YourIPAddr = ip ∧
        reply.ServerIPAddr = s.localIp ∧
        reply.IsBroadcast = false ∧
        optGet reply.Options OptionClientIdentifier = none) ∧
    (∀ e : String, NewReplyFromRequest xid m = .error e →
      createUnicastPayload s xid m t = (.err e, s)) := by
  constructor
  · intro skel ip hsk hg
    obtain ⟨x, rfl⟩ := newReply_some _ _ _ hsk
    obtain ⟨p, hp, hty, hy, hsrv, hsid, hcid, hb⟩ := createUnicastPayload_ok s x m t ip hg
    refine ⟨p, hp, hty, hsid, ?_, by decide, ?_,
      fun h => by simp [maskBytes, Nat.not_lt.2 h], ?_, ipBytes_of_length _, hy, hsrv, hb, hcid⟩
    all_goals
      have h2 : genIP s m.ClientHWAddr = (some ip, (genIP s m.ClientHWAddr).2) :=
        Prod.ext hg rfl
      simp only [createUnicastPayload, NewReplyFromRequest] at hp
      rw [h2] at hp
      simp only [Prod.mk.injEq, Res.ok.injEq, and_true] at hp
      subst hp
      simp [DHCPv4.UpdateOption, DHCPv4.SetUnicast, optGet_optDel, optGet_optUpdate,
        OptionDHCPMessageType, OptionServerIdentifier, OptionIPAddressLeaseTime,
        OptionSubnetMask, OptionRouter, OptionClientIdentifier]
  · intro e he
    simp only [createUnicastPayload, he]

/-- Witness of C13 on the example network: the ACK for client A. -/
theorem createUnicastPayload_contents_witness :
    ∃ reply, createUnicastPayload exampleServer (some [7]) (exampleDiscover macA)
        MessageTypeAck = (.ok reply, (genIP exampleServer macA).2) ∧
      reply.MessageType = MessageTypeAck ∧
      optGet reply.Options OptionServerIdentifier = some (ipBytes [192, 168, 10, 1]) ∧
      optGet reply.Options OptionIPAddressLeaseTime = some (durationBytes 21600) ∧
      durationBytes 21600 = [0, 0, 84, 96] ∧
      optGet reply.Options OptionSubnetMask = some (maskBytes [255, 255, 255, 0]) ∧
      (([255, 255, 255, 0] : List Nat).length ≤ 4 →
        maskBytes [255, 255, 255, 0] = [255, 255, 255, 0]) ∧
      optGet reply.Options OptionRouter = some (ipBytes [192, 168, 10, 1]) ∧
      (([192, 168, 10, 1] : List Nat).length = 4 →
        ipBytes [192, 168, 10, 1] = [192, 168, 10, 1]) ∧
      reply.YourIPAddr = [192, 168, 10, 2] ∧
      reply.ServerIPAddr = [192, 168, 10, 1] ∧
      reply.IsBroadcast = false ∧
      optGet reply.Options OptionClientIdentifier = none :=
  (createUnicastPayload_contents exampleServer (some [7]) (exampleDiscover macA)
    MessageTypeAck).1 _ [192, 168, 10, 2] rfl rfl

/-- Claim C14. End-to-end scenario: the server created on `192.168.10.1` with
mask `255.255.255.0` starts with an empty registry; the sequential calls
DISCOVER from client A, DISCOVER from client B, REQUEST from A for
`192.168.10.2`, REQUEST from A for `192.168.10.9` (the raw handle opening
each time) are answered, in order, by
an OFFER frame with `192.168.10.2`, an OFFER frame with `192.168.10.3`, an ACK
frame with `192.168.10.2` and a NAK through the socket, and the registry ends
as `[A, B]`. -/
theorem end_to_end_scenario :
    (CreateServer "eth0" (.ok ([192, 168, 10, 1], [255, 255, 255, 0], [2, 0, 0, 0, 0, 1]))
      none (some "closed")).server = some exampleServer ∧
    exampleServer.macs = SyncList.empty ∧
    (handlers exampleServer
      [(examplePeer, some (exampleDiscover macA), some [1], none),
       (examplePeer, some (exampleDiscover macB), some [2], none),
       (examplePeer, some (exampleRequest macA [192, 168, 10, 2]), some [3], none),
       (examplePeer, some (exampleRequest macA [192, 168, 10, 9]), some [4], none)]).1.map
        (fun h => (h.returned,
          h.sends.map (fun f => (f.isFrame, f.payload.MessageType, To4 f.payload.YourIPAddr)))) =
      [(true, [(true, MessageTypeOffer, some [192, 168, 10, 2])]),
       (true, [(true, MessageTypeOffer, some [192, 168, 10, 3])]),
       (true, [(true, MessageTypeAck, some [192, 168, 10, 2])]),
       (true, [(false, MessageTypeNak, some [0, 0, 0, 0])])] ∧
    (handlers exampleServer
      [(examplePeer, some (exampleDiscover macA), some [1], none),
       (examplePeer, some (exampleDiscover macB), some [2], none),
       (examplePeer, some (exampleRequest macA [192, 168, 10, 2]), some [3], none),
       (examplePeer, some (exampleRequest macA [192, 168, 10, 9]), some [4], none)]).2.macs =
      ⟨[macA, macB]⟩ := by
  decide

/-- Claim C15. Silent octet wraparound: `genIP` enforces no capacity bound.
With a `localIp` that starts with `a, b, c`, it always returns an IP, and for
the registry index `i` of the address (the current size for a new address) the
IP is `[a, b, c, (i + 2) % 256]`.  On the example network, after 256 distinct
clients have registered, the 257th (index 256) receives `192.168.10.2`, the IP
of the first client (index 0). -/
theorem genIP_wraps_around :
    (∀ (s : dhcpd) (hw : List Nat) (a b c : Nat) (rest : List Nat),
      s.localIp = a :: b :: c :: rest →
      ∃ i, (genIP s hw).2.macs.Find (copyInto 6 hw) = some i ∧
        (s.macs.Find (copyInto 6 hw) = none → i = s.macs.Size) ∧
        (genIP s hw).1 = some [a, b, c, (i + 2) % 256]) ∧
    (genIPs exampleServer (exampleClients 256)).2.macs.Size = 256 ∧
    (genIPs exampleServer (exampleClients 256)).2.macs.Find [0, 0, 0, 0, 1, 0] = none ∧
    (genIP (genIPs exampleServer (exampleClients 256)).2 [0, 0, 0, 0, 1, 0]).1 =
      some [192, 168, 10, 2] ∧
    (genIPs exampleServer (exampleClients 256)).2.macs.Find [0, 0, 0, 0, 0, 0] = some 0 ∧
    (genIP (genIPs exampleServer (exampleClients 256)).2 [0, 0, 0, 0, 0, 0]).1 =
      some [192, 168, 10, 2] := by
  refine ⟨?_, ?_, ?_, exampleClients_next 256, ?_, exampleClients_first 255⟩
  · intro s hw a b c rest hip
    obtain ⟨i, hi, hr⟩ := genIP_fst s hw
    refine ⟨i, hi, ?_, by rw [hr, hip]; simp [mkIP]⟩
    intro hnone
    have hn : copyInto 6 hw ∉ s.macs.items := (findIndex_eq_none _ _).1 hnone
    rw [genIP_macs, if_neg hn, findIndex_append_not_mem _ _ _ hn] at hi
    exact (Option.some.inj hi).symm
  · unfold SyncList.Size
    rw [exampleClients_registered]
    simp [exampleClients]
  · unfold SyncList.Find
    rw [findIndex_eq_none, exampleClients_registered]
    simp [exampleClients]
  · unfold SyncList.Find
    rw [exampleClients_registered]
    simp [exampleClients, List.range_succ_eq_map, findIndex]

/-- Witness of C15 on the example network: the first client, at index 0. -/
theorem genIP_wraps_around_witness :
    ∃ i, (genIP exampleServer macA).2.macs.Find (copyInto 6 macA) = some i ∧
      (exampleServer.macs.Find (copyInto 6 macA) = none → i = exampleServer.macs.Size) ∧
      (genIP exampleServer macA).1 = some [192, 168, 10, (i + 2) % 256] :=
  genIP_wraps_around.1 exampleServer macA 192 168 10 [1] rfl

/-- Claim C16. Frame and payload agree: every frame a sequential `handler`
call writes (the answer to a DISCOVER or to a matching REQUEST) has as IPv4
destination the `YourIPAddr` of the DHCP reply it carries, also when the
Ethernet header is missing from what is written, and the whole call appends
at most one entry to the registry. -/
theorem handler_frame_matches_payload (s : dhcpd) (peer : UDPAddr) (m : Option DHCPv4)
    (xid : Option (List Nat)) (openLive : Option String) :
    (∀ (ifname : String) (eth : Ethernet) (ipv4 : IPv4) (udp : UDP) (payload : DHCPv4),
      Sent.frame ifname eth ipv4 udp payload ∈ (handler s peer m xid openLive).1.sends →
      ipv4.DstIP = payload.YourIPAddr) ∧
    (∀ (ifname : String) (ipv4 : IPv4) (udp : UDP) (payload : DHCPv4),
      Sent.withoutEthernet ifname ipv4 udp payload ∈ (handler s peer m xid openLive).1.sends →
      ipv4.DstIP = payload.YourIPAddr) ∧
    (∃ t, (handler s peer m xid openLive).2.macs.items = s.macs.items ++ t ∧ t.length ≤ 1) :=
  ⟨fun ifname eth ipv4 udp payload hf =>
      (handler_frame s peer m xid openLive _ hf).1 ifname eth ipv4 udp payload rfl,
    fun ifname ipv4 udp payload hf =>
      (handler_frame s peer m xid openLive _ hf).2 ifname ipv4 udp payload rfl,
    run_append s (Call.handler peer m xid openLive)⟩

/-- Witness of C16 on the example network: the frame that answers the first
DISCOVER of client A goes to `192.168.10.2`, the `YourIPAddr` it carries. -/
theorem handler_frame_matches_payload_witness :
    ∃ payload,
      (handler exampleServer examplePeer (some (exampleDiscover macA)) (some [7])
        none).1.sends =
        [Sent.frame "eth0" ⟨[2, 0, 0, 0, 0, 1], macA, EthernetTypeIPv4⟩
          ⟨[192, 168, 10, 1], [192, 168, 10, 2], IPProtocolUDP, IPv4DontFragment, 4, 128⟩
          ⟨67, 68⟩ payload] ∧
      [192, 168, 10, 2] = payload.YourIPAddr := by
  obtain ⟨q, _, hr⟩ := replyUnicast_complete exampleServer examplePeer [7]
    (exampleDiscover macA) MessageTypeOffer [192, 168, 10, 2] rfl rfl rfl rfl
  have hs : (handler exampleServer examplePeer (some (exampleDiscover macA)) (some [7])
      none).1.sends =
      [Sent.frame "eth0" ⟨[2, 0, 0, 0, 0, 1], macA, EthernetTypeIPv4⟩
        ⟨[192, 168, 10, 1], [192, 168, 10, 2], IPProtocolUDP, IPv4DontFragment, 4, 128⟩
        ⟨67, 68⟩ q] := by
    rw [handler_discover exampleServer examplePeer (exampleDiscover macA) (some [7]) none
      rfl rfl, hr]
    rfl
  exact ⟨q, hs, (handler_frame_matches_payload exampleServer examplePeer
    (some (exampleDiscover macA)) (some [7]) none).1 _ _ _ _ q
    (by rw [hs]; exact List.mem_singleton.2 rfl)⟩

/-- Claim C17. Dropped messages do not consume addresses: when the message is
nil, or its opcode is not boot-request, or it is a REQUEST without a
(well-formed) requested-IP option, or its type is neither DISCOVER nor
REQUEST, the state after `handler`, and so the registry, is the state
before. -/
theorem handler_drop_keeps_registry (s : dhcpd) (peer : UDPAddr) (m : Option DHCPv4)
    (xid : Option (List Nat)) (openLive : Option String)
    (h : m = none ∨ ∃ msg, m = some msg ∧
      (msg.OpCode ≠ OpcodeBootRequest ∨
        (msg.MessageType = MessageTypeRequest ∧ msg.RequestedIPAddress = none) ∨
        (msg.MessageType ≠ MessageTypeDiscover ∧ msg.MessageType ≠ MessageTypeRequest))) :
    (handler s peer m xid openLive).2 = s ∧
    (handler s peer m xid openLive).2.macs = s.macs := by
  rw [handler_drop s peer m xid openLive h]
  exact ⟨rfl, rfl⟩

/-- Witness of C17: a boot reply (opcode 2) arriving at a server on which
client A is registered. -/
theorem handler_drop_keeps_registry_witness :
    (handler (genIP exampleServer macA).2 examplePeer
        (some { exampleDiscover macB with OpCode := OpcodeBootReply }) (some [7]) none).2 =
      (genIP exampleServer macA).2 ∧
    (handler (genIP exampleServer macA).2 examplePeer
        (some { exampleDiscover macB with OpCode := OpcodeBootReply }) (some [7]) none).2.macs =
      (genIP exampleServer macA).2.macs :=
  handler_drop_keeps_registry (genIP exampleServer macA).2 examplePeer _ (some [7]) none
    (Or.inr ⟨_, rfl, Or.inl (by decide)⟩)

/-- Claim C18. The allocation key is the first six bytes only: for two
hardware-address byte sequences of any length whose first six bytes, after
zero-padding, are equal, `genIP` returns the same IP and leaves the same
registry, and calling it for one after the other adds no second entry; so a
7-byte address and its 6-byte beginning, or the empty address and
`00:00:00:00:00:00`, are one client. -/
theorem genIP_key_is_six_bytes (s : dhcpd) (h1 h2 : List Nat)
    (h : copyInto 6 h1 = copyInto 6 h2) :
    genIP s h1 = genIP s h2 ∧
    (genIP (genIP s h1).2 h2).1 = (genIP s h1).1 ∧
    (genIP (genIP s h1).2 h2).2 = (genIP s h1).2 ∧
    copyInto 6 [1, 2, 3, 4, 5, 6, 7] = copyInto 6 [1, 2, 3, 4, 5, 6] ∧
    copyInto 6 [] = copyInto 6 [0, 0, 0, 0, 0, 0] := by
  have h2' : genIP (genIP s h1).2 h2 = genIP s h1 := by
    rw [← genIP_congr _ h1 h2 h, genIP_twice]
  exact ⟨genIP_congr s h1 h2 h, by rw [h2'], by rw [h2'], rfl, rfl⟩

/-- Witness of C18 on the example network: the empty hardware address after
`00:00:00:00:00:00`. -/
theorem genIP_key_is_six_bytes_witness :
    genIP exampleServer [0, 0, 0, 0, 0, 0] = genIP exampleServer [] ∧
    (genIP (genIP exampleServer [0, 0, 0, 0, 0, 0]).2 []).1 =
      (genIP exampleServer [0, 0, 0, 0, 0, 0]).1 ∧
    (genIP (genIP exampleServer [0, 0, 0, 0, 0, 0]).2 []).2 =
      (genIP exampleServer [0, 0, 0, 0, 0, 0]).2 ∧
    copyInto 6 [1, 2, 3, 4, 5, 6, 7] = copyInto 6 [1, 2, 3, 4, 5, 6] ∧
    copyInto 6 [] = copyInto 6 [0, 0, 0, 0, 0, 0] :=
  genIP_key_is_six_bytes exampleServer [0, 0, 0, 0, 0, 0] [] rfl

/-- Claim C19. IP comparison is by value over 4 bytes: for byte sequences `a`
and `b` of length 4, `ipToComparator a = ipToComparator b` exactly when
`a = b`; and for a REQUEST with a (4-byte) requested IP, `genIP` assigning
`ip` and the reply skeleton built, `handler` takes the ACK branch exactly when
the requested IP equals `ip` as a 4-byte value (whatever it writes is an ACK to
the raw handle, exactly one write when the handle opens, the complete ACK
frame in the well-formed case), and otherwise answers with a NAK through the
socket. -/
theorem ipToComparator_by_value :
    (∀ a b : List Nat, a.length = 4 → b.length = 4 →
      (ipToComparator a = ipToComparator b ↔ a = b)) ∧
    (∀ (s : dhcpd) (peer : UDPAddr) (m skel : DHCPv4) (xid : Option (List Nat))
      (requested ip : List Nat) (openLive : Option String),
      m.OpCode = OpcodeBootRequest → m.MessageType = MessageTypeRequest →
      m.RequestedIPAddress = some requested → (genIP s m.ClientHWAddr).1 = some ip →
      NewReplyFromRequest xid m = .ok skel →
      requested.length = 4 ∧ ip.length = 4 ∧
      (requested = ip →
        (∀ f ∈ (handler s peer (some m) xid openLive).1.sends,
          f.isSocket = false ∧ f.payload.MessageType = MessageTypeAck) ∧
        (openLive = none → (handler s peer (some m) xid openLive).1.sends.length = 1) ∧
        (openLive = none → m.ClientHWAddr.length = 6 → s.localMac.length = 6 →
          s.localIp.length = 4 →
          ∃ ifname eth ipv4 udp payload,
            (handler s peer (some m) xid openLive).1.sends =
              [Sent.frame ifname eth ipv4 udp payload] ∧
            payload.MessageType = MessageTypeAck)) ∧
      (requested ≠ ip →
        ∃ payload,
          (handler s peer (some m) xid openLive).1.sends = [Sent.socket peer payload] ∧
          payload.MessageType = MessageTypeNak)) := by
  have hcmp : ∀ a b : List Nat, a.length = 4 → b.length = 4 →
      (ipToComparator a = ipToComparator b ↔ a = b) := by
    intro a b ha hb
    unfold ipToComparator
    rw [copyInto_of_length 4 a ha, copyInto_of_length 4 b hb]
  refine ⟨hcmp, ?_⟩
  intro s peer m skel xid requested ip openLive hop hmt hreq hg hsk
  have hr4 := requested_length m requested hreq
  have hi4 := genIP_length s _ ip hg
  obtain ⟨x, rfl⟩ := newReply_some _ _ _ hsk
  refine ⟨hr4, hi4, ?_, ?_⟩
  · intro he
    have hg1 : (genIP (genIP s m.ClientHWAddr).2 m.ClientHWAddr).1 = some ip := by
      rw [genIP_twice, hg]
    obtain ⟨p, hp, hty, _⟩ := createUnicastPayload_ok _ x m MessageTypeAck ip hg1
    obtain ⟨q, hq, hr⟩ := replyUnicast_ok _ peer x m MessageTypeAck ip openLive hg1
    rw [hp] at hq
    cases hq
    have hs := congrArg (fun r => r.1.sends)
      (handler_request s peer m (some x) requested ip openLive hop hmt hreq hg)
    simp only [if_pos he, hr] at hs
    refine ⟨?_, ?_, ?_⟩
    · intro f hf
      rw [hs] at hf
      cases openLive with
      | some e => simp at hf
      | none =>
        simp only [List.mem_singleton] at hf
        obtain ⟨h1, h2, _⟩ := SerializeLayers_dst (genIP s m.ClientHWAddr).2.ifname
          ⟨(genIP s m.ClientHWAddr).2.localMac, m.ClientHWAddr, EthernetTypeIPv4⟩
          ⟨(genIP s m.ClientHWAddr).2.localIp, ip, IPProtocolUDP, IPv4DontFragment, 4, 128⟩
          ⟨(genIP s m.ClientHWAddr).2.serverPort % 65536, peer.Port % 65536⟩ p hi4
        rw [hf]
        exact ⟨h1, by rw [h2]; exact hty⟩
    · intro ho
      rw [hs, ho]
      rfl
    · intro ho hhw hmac hip
      subst ho
      obtain ⟨q2, hq2, hr2⟩ := replyUnicast_complete (genIP s m.ClientHWAddr).2 peer x m
        MessageTypeAck ip hg1 hhw (by rw [genIP_localMac]; exact hmac)
        (by rw [genIP_localIp]; exact hip)
      rw [hp] at hq2
      cases hq2
      have hs2 := congrArg (fun r => r.1.sends)
        (handler_request s peer m (some x) requested ip none hop hmt hreq hg)
      simp only [if_pos he, hr2] at hs2
      exact ⟨_, _, _, _, p, hs2, hty⟩
  · intro he
    obtain ⟨p, hp, hty, _⟩ :=
      createBroadcastPayload_ok (genIP s m.ClientHWAddr).2 x m MessageTypeNak
    refine ⟨p, ?_, hty⟩
    rw [handler_request s peer m _ requested ip openLive hop hmt hreq hg, if_neg he, hp]

/-- Witness of C19 on the example network: client A requests `192.168.10.9`,
which differs from its allocated `192.168.10.2`, and is answered with a NAK. -/
theorem ipToComparator_by_value_witness :
    (ipToComparator [192, 168, 10, 9] = ipToComparator [192, 168, 10, 2] ↔
      ([192, 168, 10, 9] : List Nat) = [192, 168, 10, 2]) ∧
    ∃ payload,
      (handler exampleServer examplePeer (some (exampleRequest macA [192, 168, 10, 9]))
        (some [7]) none).1.sends = [Sent.socket examplePeer payload] ∧
      payload.MessageType = MessageTypeNak :=
  ⟨ipToComparator_by_value.1 [192, 168, 10, 9] [192, 168, 10, 2] rfl rfl,
    (ipToComparator_by_value.2 exampleServer examplePeer
      (exampleRequest macA [192, 168, 10, 9]) _ (some [7]) [192, 168, 10, 9] [192, 168, 10, 2]
      none rfl rfl rfl rfl rfl).2.2.2 (by decide)⟩

end Dhcpd
